import Mathlib

/-
Verification of the independent-weight algorithm
(`IndependentWeightAlgorithm.ipynb`) against its specification.

The Python reference code is embedded shallowly over `ℝ`:

* `itertools.product(['0','1'], repeat=d)` becomes `Range d`;
* Python float `**` (whose exponents here are only `0.0` and `1.0`,
  with `0.0 ** 0.0 = 1.0`) becomes `Real.rpow`, which satisfies
  `x ^ (0:ℝ) = 1` and `x ^ (1:ℝ) = x` for every real `x`;
* `np.log` / `np.exp` become `Real.log` / `Real.exp`;
* `np.linalg.solve` becomes a matrix solve over `ℝ` that returns `none`
  exactly when the square matrix is singular (the `LinAlgError` branch);
* a Python exception escaping a function (`max` of an empty list) is
  modelled by an `Option` result, `none` meaning the call raises.
-/

noncomputable section

namespace IndependentWeight

open scoped Classical

/-- First index of `k` in a list of bit strings; models Python `list.index`
(the default value for an absent element is never reached in the code). -/
def indexB : List (List Bool) → List Bool → ℕ
  | [], _ => 0
  | x :: xs, k => if x = k then 0 else indexB xs k + 1

/-- First index of a natural number in a list, models Python `list.index`. -/
def indexN : List ℕ → ℕ → ℕ
  | [], _ => 0
  | x :: xs, k => if x = k then 0 else indexN xs k + 1

/-- First index of a real value in a list; models Python `list.index`,
used for `critVals.index(M)` and `objectives.index(Lambda)`. -/
def indexOfR : List ℝ → ℝ → ℕ
  | [], _ => 0
  | x :: xs, v => if x = v then 0 else indexOfR xs v + 1

/-- All length-`d` bit strings in lexicographic order; models the list
`Range = itertools.product(['0','1'], repeat=d)` used throughout the code. -/
def Range : ℕ → List (List Bool)
  | 0 => [[]]
  | d + 1 => (Range d).map (List.cons false) ++ (Range d).map (List.cons true)

/-- The real value of a bit character, `float(Range[k][j])` in the code. -/
def bitR (b : Bool) : ℝ := if b then 1 else 0

/-- The probability the product source assigns to one outcome `x`: the inner
loop `pk *= (params[j]**float(x[j]))*(1.-params[j])**(1.-float(x[j]))` of
`createIndependentSource`, with Python float `**` rendered as `Real.rpow`. -/
def outcomeProb (params : List ℝ) (x : List Bool) : ℝ :=
  (List.range params.length).foldl
    (fun pk j => pk * (params.getD j 0 ^ bitR (x.getD j false) *
      (1 - params.getD j 0) ^ ((1 : ℝ) - bitR (x.getD j false)))) 1

/-- `createIndependentSource(params)`: the length-`2^d` list of outcome
probabilities of the product of Bernoulli distributions. -/
def createIndependentSource (params : List ℝ) : List ℝ :=
  (Range params.length).map (outcomeProb params)

/-- `compatible(c, P)`: `False` iff some outcome has `P[j] == 0` but
`Q[j] != 0` for `Q = createIndependentSource(c)`; the early-return loop is
rendered as `List.all` over the same index range. -/
def compatible (c P : List ℝ) : Bool :=
  let Q := createIndependentSource c
  (List.range P.length).all fun j =>
    ! (decide (P.getD j 0 = 0) && decide (Q.getD j 0 ≠ 0))

/-! ### The polyhedron vertex solver `computeVerticesHoles` -/

/-- `variables = [x for x in range(d) if 0 < c[x] < 1]`: the indices of the
free coordinates of a configuration. -/
def freeVars (c : List ℝ) (d : ℕ) : List ℕ :=
  (List.range d).filter fun x => decide (0 < c.getD x 0 ∧ c.getD x 0 < 1)

/-- The inequality system `(A, b)` of `computeVerticesHoles`: one row per
outcome `j ≠ K` with `P[j] > 0` and `Q[j] > 0`; the row carries the 0/1
coefficients over the free coordinates and `b = log(P[j]/P[K])`. -/
def rowsOf (P : List ℝ) (k : List Bool) (c : List ℝ) : List (List ℝ × ℝ) :=
  (List.range (Range k.length).length).filterMap fun j =>
    if j ≠ indexB (Range k.length) k ∧ 0 < P.getD j 0 ∧
        0 < (createIndependentSource c).getD j 0 then
      some ((freeVars c k.length).map fun i =>
          if ((Range k.length).getD j []).getD i false ≠
            ((Range k.length).getD (indexB (Range k.length) k) []).getD i false
          then (1 : ℝ) else 0,
        Real.log (P.getD j 0 / P.getD (indexB (Range k.length) k) 0))
    else none

/-- `itertools.combinations(l, e)` in its enumeration order. -/
def combinations : ℕ → List ℕ → List (List ℕ)
  | 0, _ => [[]]
  | _ + 1, [] => []
  | e + 1, x :: xs => ((combinations e xs).map (List.cons x)) ++ combinations (e + 1) xs

/-- `np.dot` of a coefficient row with a vertex candidate. -/
def dotL (a y : List ℝ) : ℝ := (List.zipWith (· * ·) a y).sum

/-- `np.linalg.solve` on an `n × n` system given as lists: `none` models the
`LinAlgError` raised on a singular matrix, otherwise the unique solution. -/
def solveSquare (n : ℕ) (A : List (List ℝ)) (b : List ℝ) : Option (List ℝ) :=
  let M : Matrix (Fin n) (Fin n) ℝ := Matrix.of fun i j => (A.getD i []).getD j 0
  if M.det = 0 then none
  else some (List.ofFn (M⁻¹.mulVec fun j : Fin n => b.getD j 0))

/-- One iteration of the subset loop of `computeVerticesHoles`: solve the
square subsystem picked by `subset`; keep the solution only if every row of
the full system holds within tolerance `ε`. -/
def vertexOfSubset (rows : List (List ℝ × ℝ)) (e : ℕ) (ε : ℝ)
    (subset : List ℕ) : Option (List ℝ) :=
  (solveSquare e (subset.map fun i => (rows.getD i ([], 0)).1)
      (subset.map fun i => (rows.getD i ([], 0)).2)).bind fun y =>
    if ∀ r ∈ rows, dotL r.1 y ≤ r.2 + ε then some y else none

/-- The list `vertices` accumulated by `computeVerticesHoles`. -/
def verticesOf (P : List ℝ) (k : List Bool) (c : List ℝ) (ε : ℝ) : List (List ℝ) :=
  (combinations (freeVars c k.length).length
      (List.range (rowsOf P k c).length)).filterMap
    (vertexOfSubset (rowsOf P k c) (freeVars c k.length).length ε)

/-- The objective value `P[K] * np.prod(1 + np.exp(y))` at a vertex `y`. -/
def critVal (pK : ℝ) (y : List ℝ) : ℝ :=
  pK * (y.map fun t => 1 + Real.exp t).prod

/-- Python `max` on a list of floats; `none` models the `ValueError` raised
on an empty list. -/
def listMax : List ℝ → Option ℝ
  | [] => none
  | x :: xs => some (xs.foldl max x)

/-- The final reconstruction loop of `computeVerticesHoles`: free coordinate
`j` (whose solved value sits at position `l` in `variables`) receives
`s/(1+s)` with `s = exp(yhat[l]) ** (1 - 2*float(k[l]))`; a fixed coordinate
receives `c[j]`.  Note the code reads the bit `k[l]` at the *position* `l`,
not at the coordinate `j`. -/
def reconstructQ (k : List Bool) (c : List ℝ) (yhat : List ℝ) : List ℝ :=
  (List.range k.length).map fun j =>
    if j ∈ freeVars c k.length then
      Real.exp (yhat.getD (indexN (freeVars c k.length) j) 0) ^
          ((1 : ℝ) - 2 * bitR (k.getD (indexN (freeVars c k.length) j) false)) /
        (1 + Real.exp (yhat.getD (indexN (freeVars c k.length) j) 0) ^
          ((1 : ℝ) - 2 * bitR (k.getD (indexN (freeVars c k.length) j) false)))
    else c.getD j 0

/-- The vertex `yhat = vertices[critVals.index(M)]` selected by
`computeVerticesHoles` (defaulting to `[]` when the call raises). -/
def selectedVertex (P : List ℝ) (k : List Bool) (c : List ℝ) (ε : ℝ) : List ℝ :=
  ((listMax ((verticesOf P k c ε).map
      (critVal (P.getD (indexB (Range k.length) k) 0)))).map fun M =>
    (verticesOf P k c ε).getD
      (indexOfR ((verticesOf P k c ε).map
        (critVal (P.getD (indexB (Range k.length) k) 0))) M) []).getD []

/-- `computeVerticesHoles(P, k, c, epsilon)`: `none` models the `ValueError`
raised by `max` of the empty `critVals` list when no vertex is accepted. -/
def computeVerticesHoles (P : List ℝ) (k : List Bool) (c : List ℝ) (ε : ℝ) :
    Option (ℝ × List ℝ) :=
  (listMax ((verticesOf P k c ε).map
      (critVal (P.getD (indexB (Range k.length) k) 0)))).map fun M =>
    (M, reconstructQ k c ((verticesOf P k c ε).getD
      (indexOfR ((verticesOf P k c ε).map
        (critVal (P.getD (indexB (Range k.length) k) 0))) M) []))

/-! ### The top-level search `indWeightHoles` -/

/-- `itertools.product([0, 1, 0.5], repeat=d)` in its enumeration order. -/
def configs : ℕ → List (List ℝ)
  | 0 => [[]]
  | d + 1 =>
    ((configs d).map (List.cons 0)) ++ ((configs d).map (List.cons 1)) ++
      ((configs d).map (List.cons (1/2)))

/-- The inner double loop of `indWeightHoles`; a `none` from any call of
`computeVerticesHoles` aborts the whole computation, as the Python
exception would. -/
def runCalls (P : List ℝ) : List (List ℝ × List Bool) → Option (List (ℝ × List ℝ))
  | [] => some []
  | ci :: rest =>
    (computeVerticesHoles P ci.2 ci.1 (1/100000)).bind fun r =>
      (runCalls P rest).map fun rs => r :: rs

/-- The list of `(c, I)` pairs for which `indWeightHoles` invokes the vertex
solver: compatible configurations with at least one free sentinel `0.5`,
paired with each outcome in the support of their source. -/
def callsOf (P : List ℝ) : List (List ℝ × List Bool) :=
  ((configs (Nat.log2 P.length)).filter fun c =>
    compatible c P && decide (0 < c.count (1/2))).flatMap fun c =>
      (Range (Nat.log2 P.length)).filterMap fun I =>
        if 0 < (createIndependentSource c).getD
            (indexB (Range (Nat.log2 P.length)) I) 0 then
          some (c, I)
        else none

/-- `indWeightHoles(P)`: the global maximum over all objective values and
the maximiser recorded at its first occurrence; `none` models the
`ValueError` from `max(objectives)` when no call contributes (and the
propagation of any exception raised inside `computeVerticesHoles`). -/
def indWeightHoles (P : List ℝ) : Option (ℝ × List ℝ) :=
  (runCalls P (callsOf P)).bind fun rs =>
    (listMax (rs.map Prod.fst)).map fun lam =>
      (lam, (rs.getD (indexOfR (rs.map Prod.fst) lam) (0, [])).2)

/-- The scalar λ of a search result (`0` for a raised exception); used to
state concrete facts about `indWeightHoles` without binders. -/
def resultObj (o : Option (ℝ × List ℝ)) : ℝ := (o.getD (0, [])).1

/-- The point-mass distribution on outcome `x₀` over `d` binary variables. -/
def pointMass (d : ℕ) (x₀ : List Bool) : List ℝ :=
  (Range d).map fun x => if x = x₀ then 1 else 0

/-! ### Basic facts about `Range` -/

theorem Range_length (d : ℕ) : (Range d).length = 2 ^ d := by
  induction d with
  | zero => rfl
  | succ d ih => simp [Range, ih, pow_succ]; ring

theorem mem_Range {d : ℕ} {x : List Bool} : x ∈ Range d ↔ x.length = d := by
  induction d generalizing x with
  | zero => cases x <;> simp [Range]
  | succ d ih =>
    cases x with
    | nil => simp [Range, ih]
    | cons b x =>
      cases b <;> simp [Range, ih]

theorem Range_nodup (d : ℕ) : (Range d).Nodup := by
  induction d with
  | zero => simp [Range]
  | succ d ih =>
    refine List.Nodup.append ?_ ?_ ?_
    · exact ih.map (fun a b h => by simpa using h)
    · exact ih.map (fun a b h => by simpa using h)
    · intro x hx hy
      rcases List.mem_map.1 hx with ⟨a, _, rfl⟩
      rcases List.mem_map.1 hy with ⟨b, _, h⟩
      simp at h

theorem indexB_lt {l : List (List Bool)} {k : List Bool} (h : k ∈ l) :
    indexB l k < l.length := by
  induction l with
  | nil => cases h
  | cons x xs ih =>
    by_cases hx : x = k
    · simp [indexB, hx]
    · have : k ∈ xs := by
        rcases List.mem_cons.1 h with h' | h'
        · exact absurd h'.symm hx
        · exact h'
      simp only [indexB, if_neg hx, List.length_cons]
      exact Nat.succ_lt_succ (ih this)

theorem getD_indexB {l : List (List Bool)} {k : List Bool} (h : k ∈ l) :
    l.getD (indexB l k) [] = k := by
  induction l with
  | nil => cases h
  | cons x xs ih =>
    by_cases hx : x = k
    · simp [indexB, hx]
    · have : k ∈ xs := by
        rcases List.mem_cons.1 h with h' | h'
        · exact absurd h'.symm hx
        · exact h'
      simp only [indexB, if_neg hx, List.getD_cons_succ]
      exact ih this

theorem Range_getD_indexB {d : ℕ} {k : List Bool} (hk : k.length = d) :
    (Range d).getD (indexB (Range d) k) [] = k :=
  getD_indexB (mem_Range.2 hk)

theorem Range_indexB_lt {d : ℕ} {k : List Bool} (hk : k.length = d) :
    indexB (Range d) k < 2 ^ d := by
  rw [← Range_length d]
  exact indexB_lt (mem_Range.2 hk)

/-! ### The product formula for `createIndependentSource` -/

theorem foldl_mul_eq (f : ℕ → ℝ) (l : List ℕ) (a : ℝ) :
    l.foldl (fun pk j => pk * f j) a = a * (l.map f).prod := by
  induction l generalizing a with
  | nil => simp
  | cons x xs ih => simp [ih, mul_assoc]

theorem factor_eq (p : ℝ) (b : Bool) :
    p ^ bitR b * (1 - p) ^ ((1 : ℝ) - bitR b) = if b then p else 1 - p := by
  cases b <;> simp [bitR]

theorem outcomeProb_eq (params : List ℝ) (x : List Bool) :
    outcomeProb params x =
      ((List.range params.length).map fun j =>
        if x.getD j false then params.getD j 0 else 1 - params.getD j 0).prod := by
  rw [outcomeProb, foldl_mul_eq, one_mul]
  congr 1
  exact List.map_congr_left fun j _ => factor_eq _ _

theorem createIndependentSource_length (params : List ℝ) :
    (createIndependentSource params).length = 2 ^ params.length := by
  simp [createIndependentSource, Range_length]

theorem createIndependentSource_getD (params : List ℝ) {i : ℕ}
    (hi : i < 2 ^ params.length) :
    (createIndependentSource params).getD i 0 =
      outcomeProb params ((Range params.length).getD i []) := by
  have h : i < (Range params.length).length := by rwa [Range_length]
  rw [createIndependentSource, List.getD_eq_getElem _ 0 (by simpa using h),
    List.getElem_map, List.getD_eq_getElem _ [] h]

/-! ### Facts about `listMax` -/

theorem le_foldl_max (xs : List ℝ) (a : ℝ) : a ≤ xs.foldl max a := by
  induction xs generalizing a with
  | nil => exact le_rfl
  | cons x xs ih => exact le_trans (le_max_left a x) (ih (max a x))

theorem mem_le_foldl_max {x : ℝ} {xs : List ℝ} (a : ℝ) (h : x ∈ xs) :
    x ≤ xs.foldl max a := by
  induction xs generalizing a with
  | nil => cases h
  | cons y ys ih =>
    rcases List.mem_cons.1 h with rfl | h'
    · exact le_trans (le_max_right a x) (le_foldl_max ys (max a x))
    · exact ih (max a y) h'

theorem foldl_max_mem (xs : List ℝ) (a : ℝ) : xs.foldl max a ∈ a :: xs := by
  induction xs generalizing a with
  | nil => simp
  | cons x xs ih =>
    have h := ih (max a x)
    rw [List.foldl_cons]
    rcases List.mem_cons.1 h with h' | h'
    · rcases max_choice a x with hm | hm
      · rw [h', hm]; exact List.mem_cons_self _ _
      · rw [h', hm]; exact List.mem_cons_of_mem _ (List.mem_cons_self _ _)
    · exact List.mem_cons_of_mem _ (List.mem_cons_of_mem _ h')

theorem listMax_mem {l : List ℝ} {M : ℝ} (h : listMax l = some M) : M ∈ l := by
  cases l with
  | nil => simp [listMax] at h
  | cons x xs =>
    simp only [listMax, Option.some.injEq] at h
    subst h
    exact foldl_max_mem xs x

theorem le_listMax {l : List ℝ} {M x : ℝ} (h : listMax l = some M) (hx : x ∈ l) :
    x ≤ M := by
  cases l with
  | nil => cases hx
  | cons y ys =>
    simp only [listMax, Option.some.injEq] at h
    subst h
    rcases List.mem_cons.1 hx with rfl | h'
    · exact le_foldl_max ys x
    · exact mem_le_foldl_max y h'

theorem listMax_ne_nil {l : List ℝ} (h : l ≠ []) : ∃ M, listMax l = some M := by
  cases l with
  | nil => exact absurd rfl h
  | cons x xs => exact ⟨xs.foldl max x, rfl⟩

/-! ### Solving square subsystems -/

theorem solveSquare_eq_some {n : ℕ} {A : List (List ℝ)} {b : List ℝ} (y : List ℝ)
    (hy : y.length = n)
    (hdet : (Matrix.of fun i j : Fin n => (A.getD i []).getD j 0).det ≠ 0)
    (hsol : ∀ i : Fin n,
      (∑ j : Fin n, (A.getD i []).getD j 0 * y.getD j 0) = b.getD i 0) :
    solveSquare n A b = some y := by
  unfold solveSquare
  rw [if_neg hdet]
  set M : Matrix (Fin n) (Fin n) ℝ := Matrix.of fun i j => (A.getD i []).getD j 0 with hM
  have hmv : M.mulVec (fun j : Fin n => y.getD j 0) = fun i : Fin n => b.getD i 0 := by
    funext i
    simpa [Matrix.mulVec, Matrix.dotProduct, hM] using hsol i
  have hinv : M⁻¹.mulVec (fun j : Fin n => b.getD j 0) = fun j : Fin n => y.getD j 0 := by
    rw [← hmv, Matrix.mulVec_mulVec,
      Matrix.nonsing_inv_mul M (isUnit_iff_ne_zero.2 hdet), Matrix.one_mulVec]
  rw [hinv]
  congr 1
  refine List.ext_getElem (by simpa using hy.symm) fun i h₁ h₂ => ?_
  simp [List.getD, List.getElem?_eq_getElem h₂]

theorem solveSquare_singular {n : ℕ} {A : List (List ℝ)} {b : List ℝ}
    (hdet : (Matrix.of fun i j : Fin n => (A.getD i []).getD j 0).det = 0) :
    solveSquare n A b = none := by
  unfold solveSquare
  rw [if_pos hdet]

/-! ### Membership in the vertex list and the shape of the solver result -/

theorem computeVerticesHoles_eq (P : List ℝ) (k : List Bool) (c : List ℝ) (ε : ℝ) :
    computeVerticesHoles P k c ε =
      (listMax ((verticesOf P k c ε).map
          (critVal (P.getD (indexB (Range k.length) k) 0)))).map fun M =>
        (M, reconstructQ k c ((verticesOf P k c ε).getD
          (indexOfR ((verticesOf P k c ε).map
            (critVal (P.getD (indexB (Range k.length) k) 0))) M) [])) := rfl

theorem mem_verticesOf {P : List ℝ} {k : List Bool} {c : List ℝ} {ε : ℝ}
    (s : List ℕ) (y : List ℝ)
    (hs : s ∈ combinations (freeVars c k.length).length
      (List.range (rowsOf P k c).length))
    (hv : vertexOfSubset (rowsOf P k c) (freeVars c k.length).length ε s = some y) :
    y ∈ verticesOf P k c ε := by
  unfold verticesOf
  exact List.mem_filterMap.2 ⟨s, hs, hv⟩

theorem cvh_of_mem_vertex {P : List ℝ} {k : List Bool} {c : List ℝ} {ε : ℝ}
    {y : List ℝ} (hy : y ∈ verticesOf P k c ε) :
    ∃ r, computeVerticesHoles P k c ε = some r ∧
      critVal (P.getD (indexB (Range k.length) k) 0) y ≤ r.1 := by
  set f := critVal (P.getD (indexB (Range k.length) k) 0) with hf
  have hmem : f y ∈ (verticesOf P k c ε).map f := List.mem_map_of_mem f hy
  have hne : (verticesOf P k c ε).map f ≠ [] := List.ne_nil_of_mem hmem
  obtain ⟨M, hmaking⟩ := listMax_ne_nil hne
  refine ⟨(M, reconstructQ k c ((verticesOf P k c ε).getD
      (indexOfR ((verticesOf P k c ε).map f) M) [])), ?_,
    le_listMax hmaking hmem⟩
  rw [computeVerticesHoles_eq, ← hf, hmaking, Option.map_some']

/-! ### Sequencing of the solver calls -/

theorem runCalls_forall {P : List ℝ} {l : List (List ℝ × List Bool)}
    (h : ∀ ci ∈ l, ∃ r, computeVerticesHoles P ci.2 ci.1 (1/100000) = some r) :
    ∃ rs, runCalls P l = some rs ∧
      List.Forall₂ (fun ci r => computeVerticesHoles P ci.2 ci.1 (1/100000) = some r) l rs := by
  induction l with
  | nil => exact ⟨[], rfl, List.Forall₂.nil⟩
  | cons ci rest ih =>
    obtain ⟨r, hr⟩ := h ci (List.mem_cons_self _ _)
    obtain ⟨rs, hrs, hfa⟩ := ih fun x hx => h x (List.mem_cons_of_mem _ hx)
    refine ⟨r :: rs, ?_, List.Forall₂.cons hr hfa⟩
    unfold runCalls
    rw [hr, hrs, Option.some_bind, Option.map_some']

theorem forall₂_mem {α β : Type} {R : α → β → Prop} {l : List α} {rs : List β}
    (h : List.Forall₂ R l rs) {a : α} (ha : a ∈ l) : ∃ r ∈ rs, R a r := by
  induction h with
  | nil => cases ha
  | cons hR _ ih =>
    rcases List.mem_cons.1 ha with rfl | ha'
    · exact ⟨_, List.mem_cons_self _ _, hR⟩
    · obtain ⟨r, hr, hRr⟩ := ih ha'
      exact ⟨r, List.mem_cons_of_mem _ hr, hRr⟩

/-! ### Monotonicity in the tolerance -/

theorem vertexOfSubset_mono {rows : List (List ℝ × ℝ)} {e : ℕ} {ε ε' : ℝ}
    (hε : ε ≤ ε') {s : List ℕ} {y : List ℝ}
    (h : vertexOfSubset rows e ε s = some y) :
    vertexOfSubset rows e ε' s = some y := by
  unfold vertexOfSubset at h ⊢
  cases hsolve : solveSquare e (s.map fun i => (rows.getD i ([], 0)).1)
      (s.map fun i => (rows.getD i ([], 0)).2) with
  | none => rw [hsolve] at h; cases h
  | some y₀ =>
    rw [hsolve, Option.some_bind] at h
    rw [Option.some_bind]
    by_cases hfeas : ∀ r ∈ rows, dotL r.1 y₀ ≤ r.2 + ε
    · rw [if_pos hfeas] at h
      have hfeas' : ∀ r ∈ rows, dotL r.1 y₀ ≤ r.2 + ε' := fun r hr =>
        le_trans (hfeas r hr) (by linarith)
      rw [if_pos hfeas']
      exact h
    · rw [if_neg hfeas] at h
      cases h

theorem filterMap_sublist {α β : Type} {f g : α → Option β} (l : List α)
    (h : ∀ a b, f a = some b → g a = some b) :
    (l.filterMap f).Sublist (l.filterMap g) := by
  induction l with
  | nil => simp
  | cons a l ih =>
    cases hfa : f a with
    | none =>
      rw [List.filterMap_cons, hfa]
      cases hga : g a with
      | none => rw [List.filterMap_cons, hga]; exact ih
      | some b => rw [List.filterMap_cons, hga]; exact ih.cons b
    | some b =>
      have hga := h a b hfa
      rw [List.filterMap_cons, hfa, List.filterMap_cons, hga]
      exact ih.cons₂ b

theorem verticesOf_mono {P : List ℝ} {k : List Bool} {c : List ℝ} {ε ε' : ℝ}
    (hε : ε ≤ ε') : (verticesOf P k c ε).Sublist (verticesOf P k c ε') := by
  unfold verticesOf
  exact filterMap_sublist _ fun s y h => vertexOfSubset_mono hε h

/-! ### Characterisation of `compatible` -/

theorem compatible_eq_true_iff (c P : List ℝ) :
    compatible c P = true ↔
      ∀ j < P.length,
        ¬(P.getD j 0 = 0 ∧ (createIndependentSource c).getD j 0 ≠ 0) := by
  simp [compatible, List.all_eq_true, List.mem_range, not_and, Decidable.imp_iff_not_or]

theorem verticesOf_feasible {P : List ℝ} {k : List Bool} {c : List ℝ} {ε : ℝ}
    {y : List ℝ} (hy : y ∈ verticesOf P k c ε) :
    ∀ r ∈ rowsOf P k c, dotL r.1 y ≤ r.2 + ε := by
  unfold verticesOf at hy
  obtain ⟨s, _, hv⟩ := List.mem_filterMap.1 hy
  unfold vertexOfSubset at hv
  cases hsolve : solveSquare (freeVars c k.length).length
      (s.map fun i => ((rowsOf P k c).getD i ([], 0)).1)
      (s.map fun i => ((rowsOf P k c).getD i ([], 0)).2) with
  | none => rw [hsolve] at hv; cases hv
  | some y₀ =>
    rw [hsolve, Option.some_bind] at hv
    by_cases hfeas : ∀ r ∈ rowsOf P k c, dotL r.1 y₀ ≤ r.2 + ε
    · rw [if_pos hfeas] at hv
      cases hv
      exact hfeas
    · rw [if_neg hfeas] at hv
      cases hv

/-! ### Small concrete evaluations used by witnesses -/

theorem Range_one : Range 1 = [[false], [true]] := rfl

theorem Range_two :
    Range 2 = [[false, false], [false, true], [true, false], [true, true]] := rfl

theorem cis_half : createIndependentSource [(1 : ℝ)/2] = [1/2, 1/2] := by
  show (Range 1).map (outcomeProb [(1 : ℝ)/2]) = [1/2, 1/2]
  rw [Range_one]
  simp [outcomeProb_eq, List.range_succ]
  norm_num

theorem cis_c1 : createIndependentSource [(0 : ℝ), 1/2] = [1/2, 1/2, 0, 0] := by
  show (Range 2).map (outcomeProb [(0 : ℝ), 1/2]) = [1/2, 1/2, 0, 0]
  rw [Range_two]
  simp [outcomeProb_eq, List.range_succ]
  norm_num

theorem cis_c2 : createIndependentSource [(1 : ℝ), 1/2] = [0, 0, 1/2, 1/2] := by
  show (Range 2).map (outcomeProb [(1 : ℝ), 1/2]) = [0, 0, 1/2, 1/2]
  rw [Range_two]
  simp [outcomeProb_eq, List.range_succ]
  norm_num

theorem cis_c3 : createIndependentSource [(1 : ℝ)/2, 0] = [1/2, 0, 1/2, 0] := by
  show (Range 2).map (outcomeProb [(1 : ℝ)/2, 0]) = [1/2, 0, 1/2, 0]
  rw [Range_two]
  simp [outcomeProb_eq, List.range_succ]
  norm_num

theorem cis_c4 : createIndependentSource [(1 : ℝ)/2, 1] = [0, 1/2, 0, 1/2] := by
  show (Range 2).map (outcomeProb [(1 : ℝ)/2, 1]) = [0, 1/2, 0, 1/2]
  rw [Range_two]
  simp [outcomeProb_eq, List.range_succ]
  norm_num

theorem cis_c5 :
    createIndependentSource [(1 : ℝ)/2, 1/2] = [1/4, 1/4, 1/4, 1/4] := by
  show (Range 2).map (outcomeProb [(1 : ℝ)/2, 1/2]) = [1/4, 1/4, 1/4, 1/4]
  rw [Range_two]
  simp [outcomeProb_eq, List.range_succ]
  norm_num

/-! ### Claim C2: the product formula of `createIndependentSource` -/

/-- C2: for every list `params` of `d` reals in `[0,1]`,
`createIndependentSource(params)` has length `2^d` and its entry for the
bit-string outcome at lexicographic position `i` is the product over the
coordinates `j` of `params[j]` when bit `j` is 1 and `1 - params[j]` when it
is 0; the `rpow` model of Python float `**` satisfies `0 ^ 0 = 1`, so
parameters exactly `0` or `1` produce these products too (no `NaN`). -/
theorem claim2_product_formula (params : List ℝ)
    (h : ∀ p ∈ params, 0 ≤ p ∧ p ≤ 1) :
    (createIndependentSource params).length = 2 ^ params.length ∧
    ∀ i < 2 ^ params.length,
      (createIndependentSource params).getD i 0 =
        ((List.range params.length).map fun j =>
          if ((Range params.length).getD i []).getD j false then params.getD j 0
          else 1 - params.getD j 0).prod := by
  refine ⟨createIndependentSource_length params, fun i hi => ?_⟩
  rw [createIndependentSource_getD params hi, outcomeProb_eq]

/-- Witness for C2 at the concrete parameter list `[0, 1/2]` (a degenerate
coordinate fixed at 0 together with a free one). -/
theorem claim2_witness :
    (createIndependentSource [(0 : ℝ), 1/2]).length = 2 ^ ([(0 : ℝ), 1/2]).length ∧
    ∀ i < 2 ^ ([(0 : ℝ), 1/2]).length,
      (createIndependentSource [(0 : ℝ), 1/2]).getD i 0 =
        ((List.range ([(0 : ℝ), 1/2]).length).map fun j =>
          if ((Range ([(0 : ℝ), 1/2]).length).getD i []).getD j false
          then ([(0 : ℝ), 1/2]).getD j 0
          else 1 - ([(0 : ℝ), 1/2]).getD j 0).prod :=
  claim2_product_formula [(0 : ℝ), 1/2] (by norm_num)

/-! ### Claim C3: `compatible` is `false` exactly on a support violation -/

/-- C3: `compatible(c, P)` returns `false` iff some outcome index `j` has
`P[j]` exactly zero while `Q[j] = createIndependentSource(c)[j]` is nonzero;
otherwise it returns `true` (a `P`-nonzero/`Q`-zero outcome is allowed). -/
theorem claim3_compatible_false_iff (c P : List ℝ)
    (hdim : P.length = 2 ^ c.length) :
    compatible c P = false ↔
      ∃ j < P.length,
        P.getD j 0 = 0 ∧ (createIndependentSource c).getD j 0 ≠ 0 := by
  rw [← Bool.not_eq_true, compatible_eq_true_iff]
  push_neg
  constructor
  · rintro ⟨j, hj, hPQ⟩
    exact ⟨j, hj, hPQ⟩
  · rintro ⟨j, hj, h0, hne⟩
    exact ⟨j, hj, h0, hne⟩

/-- Witness for C3 at `c = [1/2]`, `P = [1, 0]`: the free coordinate puts
mass on outcome 1 where `P` is zero, so `compatible` must return `false`. -/
theorem claim3_witness :
    ([(1 : ℝ), 0]).length = 2 ^ ([(1 : ℝ)/2]).length ∧
    (compatible [(1 : ℝ)/2] [(1 : ℝ), 0] = false ↔
      ∃ j < ([(1 : ℝ), 0]).length,
        ([(1 : ℝ), 0]).getD j 0 = 0 ∧
          (createIndependentSource [(1 : ℝ)/2]).getD j 0 ≠ 0) :=
  ⟨by norm_num, claim3_compatible_false_iff [(1 : ℝ)/2] [(1 : ℝ), 0] (by norm_num)⟩

/-! ### Claim C8: a source is always compatible with itself -/

/-- C8: for every configuration `c`,
`compatible(c, createIndependentSource(c))` returns `true`. -/
theorem claim8_self_compatible (c : List ℝ) :
    compatible c (createIndependentSource c) = true := by
  rw [compatible_eq_true_iff]
  rintro j hj ⟨h0, hne⟩
  exact hne h0

/-! ### Claim C10: the reference probability is positive inside the search -/

/-- C10: under the guards with which `indWeightHoles` invokes the vertex
solver — `c` passed the compatibility filter and the reference outcome `k`
has `Q[K] > 0` — the reference probability `P[K]` is strictly positive, and
every right-hand side `log(P[j]/P[K])` built by `computeVerticesHoles` is
the log of a strictly positive ratio (no division by zero, no log of zero). -/
theorem claim10_reference_positive (P c : List ℝ) (k : List Bool)
    (hP : ∀ x ∈ P, 0 ≤ x) (hcomp : compatible c P = true)
    (hdim : P.length = 2 ^ c.length) (hk : k.length = c.length)
    (hQ : 0 < (createIndependentSource c).getD (indexB (Range k.length) k) 0) :
    0 < P.getD (indexB (Range k.length) k) 0 ∧
    ∀ r ∈ rowsOf P k c, ∃ x, 0 < x ∧ r.2 = Real.log x := by
  have hKlt : indexB (Range k.length) k < P.length := by
    rw [hdim, ← hk]
    exact Range_indexB_lt rfl
  have hgetDnonneg : ∀ j, 0 ≤ P.getD j 0 := by
    intro j
    by_cases hj : j < P.length
    · rw [List.getD_eq_getElem P 0 hj]
      exact hP _ (List.getElem_mem hj)
    · rw [List.getD_eq_default P 0 (Nat.le_of_not_lt hj)]
  have hKpos : 0 < P.getD (indexB (Range k.length) k) 0 := by
    rcases lt_or_eq_of_le (hgetDnonneg (indexB (Range k.length) k)) with h | h
    · exact h
    · exact absurd ⟨h.symm, ne_of_gt hQ⟩ ((compatible_eq_true_iff c P).1 hcomp _ hKlt)
  refine ⟨hKpos, fun r hr => ?_⟩
  unfold rowsOf at hr
  obtain ⟨j, _, hj⟩ := List.mem_filterMap.1 hr
  by_cases hcond : j ≠ indexB (Range k.length) k ∧ 0 < P.getD j 0 ∧
      0 < (createIndependentSource c).getD j 0
  · rw [if_pos hcond] at hj
    obtain rfl := Option.some.inj hj
    exact ⟨P.getD j 0 / P.getD (indexB (Range k.length) k) 0,
      div_pos hcond.2.1 hKpos, rfl⟩
  · rw [if_neg hcond] at hj
    cases hj

/-- Witness for C10 at `c = [1/2]`, `P = [1/2, 1/2]`, `k = "0"`. -/
theorem claim10_witness :
    0 < ([(1 : ℝ)/2, 1/2]).getD (indexB (Range ([false]).length) [false]) 0 ∧
    ∀ r ∈ rowsOf [(1 : ℝ)/2, 1/2] [false] [(1 : ℝ)/2],
      ∃ x, 0 < x ∧ r.2 = Real.log x := by
  refine claim10_reference_positive [(1 : ℝ)/2, 1/2] [(1 : ℝ)/2] [false]
    (by norm_num) ?_ (by norm_num) (by norm_num) ?_
  · rw [compatible_eq_true_iff]
    intro j hj h
    simp only [List.length_cons, List.length_nil] at hj
    interval_cases j <;> simp at h
  · show 0 < (createIndependentSource [(1 : ℝ)/2]).getD (indexB (Range 1) [false]) 0
    rw [cis_half]
    norm_num [indexB, Range_one]

/-! ### Claim C9: vertex acceptance and monotonicity in the tolerance -/

/-- C9: a solved subsystem solution is accepted as a vertex exactly when it
satisfies every row of the full system within tolerance (`A·y ≤ b + ε`
elementwise); consequently enlarging `ε` only enlarges the list of accepted
vertices (as a sublist), and the maximum objective value returned by
`computeVerticesHoles` never decreases. -/
theorem claim9_tolerance_monotone (P : List ℝ) (k : List Bool) (c : List ℝ)
    (ε ε' : ℝ) (hε : ε ≤ ε') :
    (∀ y ∈ verticesOf P k c ε, ∀ r ∈ rowsOf P k c, dotL r.1 y ≤ r.2 + ε) ∧
    (verticesOf P k c ε).Sublist (verticesOf P k c ε') ∧
    ∀ M q, computeVerticesHoles P k c ε = some (M, q) →
      ∃ r, computeVerticesHoles P k c ε' = some r ∧ M ≤ r.1 := by
  refine ⟨fun y hy => verticesOf_feasible hy, verticesOf_mono hε, ?_⟩
  intro M q hMq
  rw [computeVerticesHoles_eq] at hMq
  obtain ⟨M₀, hmax, hM₀⟩ := Option.map_eq_some'.1 hMq
  have hM : M₀ = M := congrArg Prod.fst hM₀
  subst hM
  set f := critVal (P.getD (indexB (Range k.length) k) 0) with hf
  have hmemM : M₀ ∈ (verticesOf P k c ε).map f := listMax_mem hmax
  have hsub : ((verticesOf P k c ε).map f).Sublist ((verticesOf P k c ε').map f) :=
    (verticesOf_mono hε).map f
  have hmemM' : M₀ ∈ (verticesOf P k c ε').map f := hsub.subset hmemM
  obtain ⟨M', hmax'⟩ := listMax_ne_nil (List.ne_nil_of_mem hmemM')
  refine ⟨(M', reconstructQ k c ((verticesOf P k c ε').getD
      (indexOfR ((verticesOf P k c ε').map f) M') [])), ?_, le_listMax hmax' hmemM'⟩
  rw [computeVerticesHoles_eq, ← hf, hmax', Option.map_some']

/-- Witness for C9: the vertex list at the default tolerance `1e-5` is a
sublist of the list at `1e-3`, on a concrete instance. -/
theorem claim9_witness :
    (verticesOf [(1 : ℝ)/2, 1/2] [false] [(1 : ℝ)/2] (1/100000)).Sublist
      (verticesOf [(1 : ℝ)/2, 1/2] [false] [(1 : ℝ)/2] (1/1000)) :=
  (claim9_tolerance_monotone [(1 : ℝ)/2, 1/2] [false] [(1 : ℝ)/2]
    (1/100000) (1/1000) (by norm_num)).2.1

/-! ### Evaluation of `freeVars` on the concrete configurations -/

theorem freeVars_half : freeVars [(1 : ℝ)/2] 1 = [0] := by
  norm_num [freeVars, List.range_succ, List.filter]

theorem freeVars_c1 : freeVars [(0 : ℝ), 1/2] 2 = [1] := by
  norm_num [freeVars, List.range_succ, List.filter]

theorem freeVars_c2 : freeVars [(1 : ℝ), 1/2] 2 = [1] := by
  norm_num [freeVars, List.range_succ, List.filter]

theorem freeVars_c3 : freeVars [(1 : ℝ)/2, 0] 2 = [0] := by
  norm_num [freeVars, List.range_succ, List.filter]

theorem freeVars_c4 : freeVars [(1 : ℝ)/2, 1] 2 = [0] := by
  norm_num [freeVars, List.range_succ, List.filter]

theorem freeVars_c5 : freeVars [(1 : ℝ)/2, 1/2] 2 = [0, 1] := by
  norm_num [freeVars, List.range_succ, List.filter]

/-! ### Claim C5: a call of `computeVerticesHoles` that raises on `max([])` -/

theorem rows_C5 :
    rowsOf [(1 : ℝ)/10, 2/5, 2/5, 1/10] [false, true] [(1 : ℝ)/2, 0] =
      [([0], Real.log (1/4)), ([1], 0)] := by
  unfold rowsOf
  rw [show ([false, true] : List Bool).length = 2 from rfl, cis_c3, freeVars_c3,
    show indexB (Range 2) [false, true] = 1 from rfl, Range_two]
  norm_num [List.range_succ, List.filterMap_cons]

theorem vos_C5_0 :
    vertexOfSubset [([0], Real.log (1/4)), ([(1 : ℝ)], 0)] 1 (1/100000) [0] = none := by
  unfold vertexOfSubset
  rw [show ([0] : List ℕ).map
        (fun i => (([([0], Real.log (1/4)), ([(1 : ℝ)], 0)].getD i ([], 0)).1)) =
      [[0]] from rfl]
  rw [solveSquare_singular (by rw [Matrix.det_fin_one]; simp [List.getD])]
  rfl

theorem vos_C5_1 :
    vertexOfSubset [([0], Real.log (1/4)), ([(1 : ℝ)], 0)] 1 (1/100000) [1] = none := by
  unfold vertexOfSubset
  rw [show ([1] : List ℕ).map
        (fun i => (([([0], Real.log (1/4)), ([(1 : ℝ)], 0)].getD i ([], 0)).1)) =
      [[1]] from rfl]
  rw [show ([1] : List ℕ).map
        (fun i => (([([0], Real.log (1/4)), ([(1 : ℝ)], 0)].getD i ([], 0)).2)) =
      [(0 : ℝ)] from rfl]
  rw [solveSquare_eq_some [(0 : ℝ)] (show ([(0 : ℝ)]).length = 1 from rfl)
    (by rw [Matrix.det_fin_one]; simp [List.getD])
    (by intro i; fin_cases i; simp [Fin.sum_univ_one, List.getD])]
  have hnot : ¬ ∀ r ∈ [([0], Real.log (1/4)), ([(1 : ℝ)], 0)],
      dotL r.1 [(0 : ℝ)] ≤ r.2 + 1/100000 := by
    intro hfeas
    have h1 := hfeas ([0], Real.log (1/4)) (List.mem_cons_self _ _)
    simp only [dotL, List.zipWith_cons_cons, List.zipWith_nil_right, List.zipWith,
      mul_zero, zero_mul, List.sum_cons, List.sum_nil, add_zero] at h1
    have hlog4 : (1 : ℝ) < Real.log 4 :=
      (Real.lt_log_iff_exp_lt (by norm_num)).2 (Real.exp_one_lt_d9.trans (by norm_num))
    have h2 : Real.log (1/4) = -Real.log 4 := by rw [one_div, Real.log_inv]
    rw [h2] at h1
    linarith
  rw [Option.some_bind, if_neg hnot]

theorem verts_C5 :
    verticesOf [(1 : ℝ)/10, 2/5, 2/5, 1/10] [false, true] [(1 : ℝ)/2, 0]
      (1/100000) = [] := by
  unfold verticesOf
  rw [show ([false, true] : List Bool).length = 2 from rfl, freeVars_c3, rows_C5,
    show ([0] : List ℕ).length = 1 from rfl,
    show ([([0], Real.log (1/4)), ([(1 : ℝ)], 0)] : List (List ℝ × ℝ)).length = 2
      from rfl,
    show combinations 1 (List.range 2) = [[0], [1]] from rfl]
  simp only [List.filterMap_cons, List.filterMap_nil, vos_C5_0, vos_C5_1]

/-- C5: on the concrete input `P = [0.1, 0.4, 0.4, 0.1]`, `k = "01"`,
`c = (0.5, 0)` no size-1 subsystem solution passes the feasibility check
(the zero-coefficient row `0 ≤ log(1/4) + ε` fails and the other subsystem
is singular), so the vertex list is empty and `computeVerticesHoles` fails
with the arithmetic/domain error of `max([])`, modelled by `none`. -/
theorem claim5_empty_max :
    verticesOf [(1 : ℝ)/10, 2/5, 2/5, 1/10] [false, true] [(1 : ℝ)/2, 0]
      (1/100000) = [] ∧
    computeVerticesHoles [(1 : ℝ)/10, 2/5, 2/5, 1/10] [false, true] [(1 : ℝ)/2, 0]
      (1/100000) = none := by
  refine ⟨verts_C5, ?_⟩
  rw [computeVerticesHoles_eq, verts_C5]
  rfl

/-! ### Claim C4: the parameter reconstruction of `computeVerticesHoles` -/

theorem reconstructQ_getD (k : List Bool) (c yhat : List ℝ) {j : ℕ}
    (hj : j < k.length) :
    (reconstructQ k c yhat).getD j 0 =
      if j ∈ freeVars c k.length then
        Real.exp (yhat.getD (indexN (freeVars c k.length) j) 0) ^
            ((1 : ℝ) - 2 * bitR (k.getD (indexN (freeVars c k.length) j) false)) /
          (1 + Real.exp (yhat.getD (indexN (freeVars c k.length) j) 0) ^
            ((1 : ℝ) - 2 * bitR (k.getD (indexN (freeVars c k.length) j) false)))
      else c.getD j 0 := by
  unfold reconstructQ
  rw [List.getD_eq_getElem _ 0 (by simpa using hj)]
  simp

theorem reconstructQ_length (k : List Bool) (c yhat : List ℝ) :
    (reconstructQ k c yhat).length = k.length := by
  simp [reconstructQ]

/-- C4 (amended): in the parameter vector `q` returned by
`computeVerticesHoles(P, k, c, ε)`, every fixed coordinate `j` carries
`c[j]` unchanged, and every free coordinate `j` — the `l`-th element of
`variables` — carries `q_j = s/(1+s)` with `s = exp(y_l)^(1-2·b)` where `b`
is the bit of the reference outcome `k` at *position `l`* (the code indexes
`k[l]`, not `k[j]`) and `y` is the selected vertex. -/
theorem claim4_parameter_reconstruction (P : List ℝ) (k : List Bool)
    (c : List ℝ) (ε M : ℝ) (q : List ℝ)
    (h : computeVerticesHoles P k c ε = some (M, q)) :
    q.length = k.length ∧
    ∀ j < k.length,
      (j ∉ freeVars c k.length → q.getD j 0 = c.getD j 0) ∧
      (j ∈ freeVars c k.length →
        q.getD j 0 =
          Real.exp ((selectedVertex P k c ε).getD
              (indexN (freeVars c k.length) j) 0) ^
              ((1 : ℝ) - 2 * bitR (k.getD (indexN (freeVars c k.length) j) false)) /
            (1 + Real.exp ((selectedVertex P k c ε).getD
              (indexN (freeVars c k.length) j) 0) ^
              ((1 : ℝ) - 2 * bitR (k.getD (indexN (freeVars c k.length) j) false)))) := by
  rw [computeVerticesHoles_eq] at h
  obtain ⟨M₀, hmax, hM₀⟩ := Option.map_eq_some'.1 h
  have hq : q = reconstructQ k c ((verticesOf P k c ε).getD
      (indexOfR ((verticesOf P k c ε).map
        (critVal (P.getD (indexB (Range k.length) k) 0))) M₀) []) :=
    (congrArg Prod.snd hM₀).symm
  have hsel : selectedVertex P k c ε = (verticesOf P k c ε).getD
      (indexOfR ((verticesOf P k c ε).map
        (critVal (P.getD (indexB (Range k.length) k) 0))) M₀) [] := by
    unfold selectedVertex
    rw [hmax, Option.map_some', Option.getD_some]
  rw [hq, hsel]
  refine ⟨reconstructQ_length _ _ _, fun j hj => ?_⟩
  rw [reconstructQ_getD _ _ _ hj]
  constructor
  · intro hfree; rw [if_neg hfree]
  · intro hfree; rw [if_pos hfree]

/-! Concrete evaluation refuting the coordinate-indexed reading of C4:
`P = [1/4, 1/2, 1/8, 1/8]`, `k = "01"`, `c = (0, 0.5)`. -/

theorem rows_C4 :
    rowsOf [(1 : ℝ)/4, 1/2, 1/8, 1/8] [false, true] [(0 : ℝ), 1/2] =
      [([1], Real.log (1/2))] := by
  unfold rowsOf
  rw [show ([false, true] : List Bool).length = 2 from rfl, cis_c1, freeVars_c1,
    show indexB (Range 2) [false, true] = 1 from rfl, Range_two]
  norm_num [List.range_succ, List.filterMap_cons]

theorem verts_C4 :
    verticesOf [(1 : ℝ)/4, 1/2, 1/8, 1/8] [false, true] [(0 : ℝ), 1/2]
      (1/100000) = [[Real.log (1/2)]] := by
  unfold verticesOf
  rw [show ([false, true] : List Bool).length = 2 from rfl, freeVars_c1, rows_C4,
    show ([1] : List ℕ).length = 1 from rfl,
    show ([([1], Real.log (1/2))] : List (List ℝ × ℝ)).length = 1 from rfl,
    show combinations 1 (List.range 1) = [[0]] from rfl]
  have h1 : vertexOfSubset [([1], Real.log (1/2))] 1 (1/100000) [0] =
      some [Real.log (1/2)] := by
    unfold vertexOfSubset
    rw [show ([0] : List ℕ).map
          (fun i => (([([1], Real.log (1/2))] : List (List ℝ × ℝ)).getD i ([], 0)).1) =
        [[1]] from rfl]
    rw [show ([0] : List ℕ).map
          (fun i => (([([1], Real.log (1/2))] : List (List ℝ × ℝ)).getD i ([], 0)).2) =
        [Real.log (1/2)] from rfl]
    rw [solveSquare_eq_some [Real.log (1/2)]
      (show ([Real.log (1/2)]).length = 1 from rfl)
      (by rw [Matrix.det_fin_one]; simp [List.getD])
      (by intro i; fin_cases i; simp [Fin.sum_univ_one, List.getD])]
    rw [Option.some_bind, if_pos]
    intro r hr
    rw [List.mem_singleton.1 hr]
    simp only [dotL, List.zipWith_cons_cons, List.zipWith_nil_right, List.sum_cons,
      List.sum_nil, one_mul, add_zero]
    norm_num
  simp only [List.filterMap_cons, List.filterMap_nil, h1]

theorem cvh_C4 :
    computeVerticesHoles [(1 : ℝ)/4, 1/2, 1/8, 1/8] [false, true] [(0 : ℝ), 1/2]
      (1/100000) = some (3/4, [0, 1/3]) := by
  rw [computeVerticesHoles_eq, verts_C4,
    show ([false, true] : List Bool).length = 2 from rfl,
    show indexB (Range 2) [false, true] = 1 from rfl,
    show ([(1 : ℝ)/4, 1/2, 1/8, 1/8]).getD 1 0 = 1/2 from rfl]
  have hcrit : critVal ((1 : ℝ)/2) [Real.log (1/2)] = 3/4 := by
    unfold critVal
    rw [List.map_cons, List.map_nil, Real.exp_log (by norm_num : (0 : ℝ) < 1/2)]
    norm_num
  rw [List.map_cons, List.map_nil, hcrit,
    show listMax [(3 : ℝ)/4] = some (3/4) from rfl, Option.map_some']
  rw [show indexOfR [(3 : ℝ)/4] (3/4) = 0 by simp [indexOfR]]
  rw [show ([[Real.log (1/2)]] : List (List ℝ)).getD 0 [] = [Real.log (1/2)]
    from rfl]
  have hrec : reconstructQ [false, true] [(0 : ℝ), 1/2] [Real.log (1/2)] =
      [0, 1/3] := by
    unfold reconstructQ
    rw [show ([false, true] : List Bool).length = 2 from rfl, freeVars_c1]
    rw [show List.range 2 = [0, 1] by simp [List.range_succ]]
    rw [List.map_cons, List.map_cons, List.map_nil]
    rw [if_neg (by simp), if_pos (by simp)]
    rw [show indexN [1] 1 = 0 by simp [indexN]]
    rw [show ([Real.log (1/2)] : List ℝ).getD 0 0 = Real.log (1/2) from rfl]
    rw [show (([false, true] : List Bool)).getD 0 false = false from rfl]
    rw [show ((1 : ℝ) - 2 * bitR false) = 1 by simp [bitR]]
    rw [Real.rpow_one, Real.exp_log (by norm_num : (0 : ℝ) < 1/2)]
    norm_num
  rw [hrec]

theorem sv_C4 :
    selectedVertex [(1 : ℝ)/4, 1/2, 1/8, 1/8] [false, true] [(0 : ℝ), 1/2]
      (1/100000) = [Real.log (1/2)] := by
  unfold selectedVertex
  rw [verts_C4, show ([false, true] : List Bool).length = 2 from rfl,
    show indexB (Range 2) [false, true] = 1 from rfl,
    show ([(1 : ℝ)/4, 1/2, 1/8, 1/8]).getD 1 0 = 1/2 from rfl]
  have hcrit : critVal ((1 : ℝ)/2) [Real.log (1/2)] = 3/4 := by
    unfold critVal
    rw [List.map_cons, List.map_nil, Real.exp_log (by norm_num : (0 : ℝ) < 1/2)]
    norm_num
  rw [List.map_cons, List.map_nil, hcrit,
    show listMax [(3 : ℝ)/4] = some (3/4) from rfl, Option.map_some']
  rw [show indexOfR [(3 : ℝ)/4] (3/4) = 0 by simp [indexOfR]]
  rfl

/-- C4 counterexample: on `P = [1/4, 1/2, 1/8, 1/8]`, `k = "01"`,
`c = (0, 0.5)` the solver returns `q = [0, 1/3]`; the claim's formula with
`b` read as the bit of `k` at the *coordinate* `j = 1` (`k[1] = 1`) would
instead give `s = exp(y_0)^(-1) = 2`, i.e. `q_1 = 2/3 ≠ 1/3`; the code reads
the bit at position `l = 0` (`k[0] = 0`). -/
theorem claim4_counterexample :
    computeVerticesHoles [(1 : ℝ)/4, 1/2, 1/8, 1/8] [false, true] [(0 : ℝ), 1/2]
        (1/100000) = some (3/4, [0, 1/3]) ∧
    ¬ (([(0 : ℝ), 1/3]).getD 1 0 =
        Real.exp ((selectedVertex [(1 : ℝ)/4, 1/2, 1/8, 1/8] [false, true]
            [(0 : ℝ), 1/2] (1/100000)).getD 0 0) ^
            ((1 : ℝ) - 2 * bitR (([false, true] : List Bool).getD 1 false)) /
          (1 + Real.exp ((selectedVertex [(1 : ℝ)/4, 1/2, 1/8, 1/8] [false, true]
            [(0 : ℝ), 1/2] (1/100000)).getD 0 0) ^
            ((1 : ℝ) - 2 * bitR (([false, true] : List Bool).getD 1 false)))) := by
  refine ⟨cvh_C4, ?_⟩
  rw [sv_C4]
  rw [show ([Real.log (1/2)] : List ℝ).getD 0 0 = Real.log (1/2) from rfl,
    show (([false, true] : List Bool)).getD 1 false = true from rfl,
    show ((1 : ℝ) - 2 * bitR true) = -1 by norm_num [bitR],
    Real.exp_log (by norm_num : (0 : ℝ) < 1/2),
    Real.rpow_neg_one]
  norm_num

/-- Witness for the amended C4 at the evaluated instance. -/
theorem claim4_witness :
    ([(0 : ℝ), 1/3] : List ℝ).length = ([false, true] : List Bool).length ∧
    ∀ j < ([false, true] : List Bool).length,
      (j ∉ freeVars [(0 : ℝ), 1/2] ([false, true] : List Bool).length →
        ([(0 : ℝ), 1/3]).getD j 0 = ([(0 : ℝ), 1/2]).getD j 0) ∧
      (j ∈ freeVars [(0 : ℝ), 1/2] ([false, true] : List Bool).length →
        ([(0 : ℝ), 1/3]).getD j 0 =
          Real.exp ((selectedVertex [(1 : ℝ)/4, 1/2, 1/8, 1/8] [false, true]
              [(0 : ℝ), 1/2] (1/100000)).getD
              (indexN (freeVars [(0 : ℝ), 1/2] ([false, true] : List Bool).length) j) 0) ^
              ((1 : ℝ) - 2 * bitR (([false, true] : List Bool).getD
                (indexN (freeVars [(0 : ℝ), 1/2] ([false, true] : List Bool).length) j) false)) /
            (1 + Real.exp ((selectedVertex [(1 : ℝ)/4, 1/2, 1/8, 1/8] [false, true]
              [(0 : ℝ), 1/2] (1/100000)).getD
              (indexN (freeVars [(0 : ℝ), 1/2] ([false, true] : List Bool).length) j) 0) ^
              ((1 : ℝ) - 2 * bitR (([false, true] : List Bool).getD
                (indexN (freeVars [(0 : ℝ), 1/2] ([false, true] : List Bool).length) j) false)))) :=
  claim4_parameter_reconstruction [(1 : ℝ)/4, 1/2, 1/8, 1/8] [false, true]
    [(0 : ℝ), 1/2] (1/100000) (3/4) [0, 1/3] cvh_C4

/-! ### Claim C6: point-mass distributions make the search raise -/

theorem mem_configs {d : ℕ} {c : List ℝ} (h : c ∈ configs d) :
    c.length = d ∧ ∀ x ∈ c, x = 0 ∨ x = 1 ∨ x = 1/2 := by
  induction d generalizing c with
  | zero =>
    simp only [configs, List.mem_singleton] at h
    subst h
    simp
  | succ d ih =>
    simp only [configs, List.mem_append, List.mem_map] at h
    rcases h with (⟨c', hc', rfl⟩ | ⟨c', hc', rfl⟩) | ⟨c', hc', rfl⟩ <;>
      obtain ⟨hlen, hvals⟩ := ih hc'
    · refine ⟨by simp [hlen], fun x hx => ?_⟩
      rcases List.mem_cons.1 hx with rfl | hx'
      · exact Or.inl rfl
      · exact hvals _ hx'
    · refine ⟨by simp [hlen], fun x hx => ?_⟩
      rcases List.mem_cons.1 hx with rfl | hx'
      · exact Or.inr (Or.inl rfl)
      · exact hvals _ hx'
    · refine ⟨by simp [hlen], fun x hx => ?_⟩
      rcases List.mem_cons.1 hx with rfl | hx'
      · exact Or.inr (Or.inr rfl)
      · exact hvals _ hx'

theorem outcomeProb_pos {params : List ℝ} {x : List Bool}
    (h : ∀ j < params.length,
      0 < if x.getD j false then params.getD j 0 else 1 - params.getD j 0) :
    0 < outcomeProb params x := by
  rw [outcomeProb_eq]
  apply List.prod_pos
  intro a ha
  obtain ⟨j, hj, rfl⟩ := List.mem_map.1 ha
  exact h j (List.mem_range.1 hj)

theorem pointMass_length (d : ℕ) (x₀ : List Bool) :
    (pointMass d x₀).length = 2 ^ d := by
  simp [pointMass, Range_length]

theorem pointMass_getD {d : ℕ} (x₀ : List Bool) {j : ℕ} (hj : j < 2 ^ d) :
    (pointMass d x₀).getD j 0 = if (Range d).getD j [] = x₀ then 1 else 0 := by
  have h : j < (Range d).length := by rwa [Range_length]
  rw [pointMass, List.getD_eq_getElem _ 0 (by simpa using h), List.getElem_map,
    List.getD_eq_getElem _ [] h]

theorem pointMass_incompatible {d : ℕ} {x₀ : List Bool} (hx : x₀.length = d)
    {c : List ℝ} (hc : c ∈ configs d) (hcount : 0 < c.count (1/2)) :
    ¬ compatible c (pointMass d x₀) = true := by
  obtain ⟨hlen, hvals⟩ := mem_configs hc
  have hhalf : (1/2 : ℝ) ∈ c := by
    by_contra hnot
    rw [List.count_eq_zero_of_not_mem hnot] at hcount
    exact lt_irrefl 0 hcount
  obtain ⟨i₀, hi₀lt, hi₀⟩ := List.getElem_of_mem hhalf
  intro hcompat
  -- the two distinct outcomes in the support of the source
  set x₁ : List Bool := c.map (fun v => decide (v = 1)) with hx₁
  set x₂ : List Bool := x₁.set i₀ true with hx₂
  have hx₁len : x₁.length = d := by simp [hx₁, hlen]
  have hx₂len : x₂.length = d := by simp [hx₂, hx₁, hlen]
  have hx₁i₀ : x₁.getD i₀ false = false := by
    rw [List.getD_eq_getElem _ _ (by simpa [hx₁] using hi₀lt)]
    simp only [hx₁, List.getElem_map, hi₀]
    norm_num
  have hx₂i₀ : x₂.getD i₀ false = true := by
    rw [List.getD_eq_getElem _ _ (by simpa [hx₂, hx₁] using hi₀lt)]
    simp [hx₂, List.getElem_set, hi₀lt, hx₁, hlen]
  have hne : x₁ ≠ x₂ := fun h => by
    rw [h] at hx₁i₀
    rw [hx₁i₀] at hx₂i₀
    cases hx₂i₀
  -- the source is positive on both outcomes
  have hQpos : ∀ x : List Bool, x.length = d →
      (∀ j, j < d → (x.getD j false = true → c.getD j 0 ≠ 0) ∧
        (x.getD j false = false → c.getD j 0 ≠ 1)) →
      0 < outcomeProb c x := by
    intro x hxlen hgood
    apply outcomeProb_pos
    intro j hj
    have hj' : j < d := by rwa [hlen] at hj
    have hcj : c.getD j 0 = 0 ∨ c.getD j 0 = 1 ∨ c.getD j 0 = 1/2 := by
      rw [List.getD_eq_getElem _ _ hj]
      exact hvals _ (List.getElem_mem hj)
    rcases Bool.eq_false_or_eq_true (x.getD j false) with hb | hb <;>
      rcases hcj with hcv | hcv | hcv <;> rw [hb, hcv]
    · exact absurd hcv ((hgood j hj').1 hb)
    · norm_num
    · norm_num
    · norm_num
    · exact absurd hcv ((hgood j hj').2 hb)
    · norm_num
  have hgood₁ : ∀ j, j < d → (x₁.getD j false = true → c.getD j 0 ≠ 0) ∧
      (x₁.getD j false = false → c.getD j 0 ≠ 1) := by
    intro j hj
    have hjc : j < c.length := by rwa [hlen]
    have : x₁.getD j false = decide (c.getD j 0 = 1) := by
      rw [List.getD_eq_getElem _ _ (by simpa [hx₁] using hjc),
        List.getD_eq_getElem _ _ hjc]
      simp [hx₁]
    rw [this]
    constructor
    · intro hb
      rw [decide_eq_true_iff] at hb
      rw [hb]; norm_num
    · intro hb
      rwa [decide_eq_false_iff_not] at hb
  have hgood₂ : ∀ j, j < d → (x₂.getD j false = true → c.getD j 0 ≠ 0) ∧
      (x₂.getD j false = false → c.getD j 0 ≠ 1) := by
    intro j hj
    by_cases hji : j = i₀
    · subst hji
      rw [hx₂i₀]
      have : c.getD j 0 = 1/2 := by
        rw [List.getD_eq_getElem _ _ hi₀lt]; exact hi₀
      constructor
      · intro _; rw [this]; norm_num
      · intro hb; cases hb
    · have : x₂.getD j false = x₁.getD j false := by
        by_cases hjd : j < d
        · have hjc : j < c.length := by rwa [hlen]
          rw [List.getD_eq_getElem _ _ (by simpa [hx₂, hx₁] using hjc),
            List.getD_eq_getElem _ _ (by simpa [hx₁] using hjc)]
          simp [hx₂, List.getElem_set, hji, Ne.symm hji]
        · rw [List.getD_eq_default _ _ (by simp [hx₂, hx₁, hlen]; omega),
            List.getD_eq_default _ _ (by simp [hx₁, hlen]; omega)]
      rw [this]
      exact hgood₁ j hj
  have hQ₁ : 0 < outcomeProb c x₁ := hQpos x₁ hx₁len hgood₁
  have hQ₂ : 0 < outcomeProb c x₂ := hQpos x₂ hx₂len hgood₂
  -- pick the one of the two outcomes different from the point mass
  have hpick : ∃ x : List Bool, x.length = d ∧ x ≠ x₀ ∧ 0 < outcomeProb c x := by
    by_cases h₁ : x₁ = x₀
    · exact ⟨x₂, hx₂len, fun h₂ => hne (h₁.trans h₂.symm), hQ₂⟩
    · exact ⟨x₁, hx₁len, h₁, hQ₁⟩
  obtain ⟨x, hxlen', hxne, hxpos⟩ := hpick
  have hxmem : x ∈ Range d := mem_Range.2 hxlen'
  have hjlt : indexB (Range d) x < 2 ^ d := by
    rw [← Range_length d]; exact indexB_lt hxmem
  have hgetD : (Range d).getD (indexB (Range d) x) [] = x := getD_indexB hxmem
  have hPzero : (pointMass d x₀).getD (indexB (Range d) x) 0 = 0 := by
    rw [pointMass_getD x₀ hjlt, hgetD, if_neg hxne]
  have hQne : (createIndependentSource c).getD (indexB (Range d) x) 0 ≠ 0 := by
    have := createIndependentSource_getD c (i := indexB (Range d) x)
      (by rwa [hlen])
    rw [this, hlen, hgetD]
    exact ne_of_gt hxpos
  have := (compatible_eq_true_iff c (pointMass d x₀)).1 hcompat
    (indexB (Range d) x) (by rwa [pointMass_length])
  exact this ⟨hPzero, hQne⟩

theorem log2_two_pow (d : ℕ) : Nat.log2 (2 ^ d) = d := by
  induction d with
  | zero => rw [pow_zero, Nat.log2]; norm_num
  | succ d ih =>
    have h2 : 2 ≤ 2 ^ (d + 1) := by
      calc 2 = 2 ^ 1 := (pow_one 2).symm
      _ ≤ 2 ^ (d + 1) := Nat.pow_le_pow_right (by norm_num) (by omega)
    have hdiv : 2 ^ (d + 1) / 2 = 2 ^ d := by
      rw [pow_succ, Nat.mul_div_cancel _ (by norm_num : 0 < 2)]
    rw [Nat.log2, if_pos h2, hdiv, ih]

theorem pointMass_indWeight_none {d : ℕ} {x₀ : List Bool} (hx : x₀.length = d) :
    indWeightHoles (pointMass d x₀) = none := by
  have hlog : Nat.log2 (pointMass d x₀).length = d := by
    rw [pointMass_length]; exact log2_two_pow d
  have hfilter : ((configs d).filter fun c =>
      compatible c (pointMass d x₀) && decide (0 < c.count (1/2))) = [] := by
    rw [List.filter_eq_nil_iff]
    intro c hc
    simp only [Bool.and_eq_true, decide_eq_true_eq, not_and]
    intro hcompat hcount
    exact absurd hcompat (pointMass_incompatible hx hc hcount)
  unfold indWeightHoles callsOf
  rw [hlog, hfilter]
  rfl

/-- C6 counterexample: for the point mass `P = [1, 0]` on outcome `"0"`
(`d = 1`), `indWeightHoles` does not return `λ = 1.0` with parameters `[0]`:
every configuration with a free coordinate is incompatible, so the call
raises `max` of the empty objectives list, modelled by `none`. -/
theorem claim6_counterexample : indWeightHoles [(1 : ℝ), 0] = none := by
  have hpm : pointMass 1 [false] = [(1 : ℝ), 0] := by
    rw [pointMass, Range_one]
    simp
  rw [← hpm]
  exact pointMass_indWeight_none rfl

/-- C6 (amended): for every distribution that is a point mass on a single
outcome, `indWeightHoles` does not return `λ = 1.0` with the matching
deterministic parameter vector — it raises: every configuration with at
least one free coordinate spreads positive probability over at least two
outcomes, so none passes the compatibility filter, the search collects no
objective, and `max([])` fails (modelled by `none`). -/
theorem claim6_point_mass (d : ℕ) (x₀ : List Bool) (hx : x₀.length = d) :
    indWeightHoles (pointMass d x₀) = none :=
  pointMass_indWeight_none hx

/-- Witness for the amended C6 at `d = 1`, point mass on `"0"`. -/
theorem claim6_witness : indWeightHoles (pointMass 1 [false]) = none :=
  claim6_point_mass 1 [false] rfl

/-! ### Parametric evaluation of the inequality systems over `d = 2`
(used for both the uniform distribution of C1 and the near-uniform
counterexample of C7; `p0..p3` are the four outcome probabilities). -/

theorem rows_c1_k00 (p0 p1 p2 p3 : ℝ) (h1 : 0 < p1) :
    rowsOf [p0, p1, p2, p3] [false, false] [(0 : ℝ), 1/2] =
      [([1], Real.log (p1/p0))] := by
  unfold rowsOf
  rw [show ([false, false] : List Bool).length = 2 from rfl, cis_c1, freeVars_c1,
    show indexB (Range 2) [false, false] = 0 from rfl, Range_two]
  norm_num [List.range_succ, List.filterMap_cons, h1]

theorem rows_c1_k01 (p0 p1 p2 p3 : ℝ) (h0 : 0 < p0) :
    rowsOf [p0, p1, p2, p3] [false, true] [(0 : ℝ), 1/2] =
      [([1], Real.log (p0/p1))] := by
  unfold rowsOf
  rw [show ([false, true] : List Bool).length = 2 from rfl, cis_c1, freeVars_c1,
    show indexB (Range 2) [false, true] = 1 from rfl, Range_two]
  norm_num [List.range_succ, List.filterMap_cons, h0]

theorem rows_c2_k10 (p0 p1 p2 p3 : ℝ) (h3 : 0 < p3) :
    rowsOf [p0, p1, p2, p3] [true, false] [(1 : ℝ), 1/2] =
      [([1], Real.log (p3/p2))] := by
  unfold rowsOf
  rw [show ([true, false] : List Bool).length = 2 from rfl, cis_c2, freeVars_c2,
    show indexB (Range 2) [true, false] = 2 from rfl, Range_two]
  norm_num [List.range_succ, List.filterMap_cons, h3]

theorem rows_c2_k11 (p0 p1 p2 p3 : ℝ) (h2 : 0 < p2) :
    rowsOf [p0, p1, p2, p3] [true, true] [(1 : ℝ), 1/2] =
      [([1], Real.log (p2/p3))] := by
  unfold rowsOf
  rw [show ([true, true] : List Bool).length = 2 from rfl, cis_c2, freeVars_c2,
    show indexB (Range 2) [true, true] = 3 from rfl, Range_two]
  norm_num [List.range_succ, List.filterMap_cons, h2]

theorem rows_c3_k00 (p0 p1 p2 p3 : ℝ) (h2 : 0 < p2) :
    rowsOf [p0, p1, p2, p3] [false, false] [(1 : ℝ)/2, 0] =
      [([1], Real.log (p2/p0))] := by
  unfold rowsOf
  rw [show ([false, false] : List Bool).length = 2 from rfl, cis_c3, freeVars_c3,
    show indexB (Range 2) [false, false] = 0 from rfl, Range_two]
  norm_num [List.range_succ, List.filterMap_cons, h2]

theorem rows_c3_k10 (p0 p1 p2 p3 : ℝ) (h0 : 0 < p0) :
    rowsOf [p0, p1, p2, p3] [true, false] [(1 : ℝ)/2, 0] =
      [([1], Real.log (p0/p2))] := by
  unfold rowsOf
  rw [show ([true, false] : List Bool).length = 2 from rfl, cis_c3, freeVars_c3,
    show indexB (Range 2) [true, false] = 2 from rfl, Range_two]
  norm_num [List.range_succ, List.filterMap_cons, h0]

theorem rows_c4_k01 (p0 p1 p2 p3 : ℝ) (h3 : 0 < p3) :
    rowsOf [p0, p1, p2, p3] [false, true] [(1 : ℝ)/2, 1] =
      [([1], Real.log (p3/p1))] := by
  unfold rowsOf
  rw [show ([false, true] : List Bool).length = 2 from rfl, cis_c4, freeVars_c4,
    show indexB (Range 2) [false, true] = 1 from rfl, Range_two]
  norm_num [List.range_succ, List.filterMap_cons, h3]

theorem rows_c4_k11 (p0 p1 p2 p3 : ℝ) (h1 : 0 < p1) :
    rowsOf [p0, p1, p2, p3] [true, true] [(1 : ℝ)/2, 1] =
      [([1], Real.log (p1/p3))] := by
  unfold rowsOf
  rw [show ([true, true] : List Bool).length = 2 from rfl, cis_c4, freeVars_c4,
    show indexB (Range 2) [true, true] = 3 from rfl, Range_two]
  norm_num [List.range_succ, List.filterMap_cons, h1]

theorem rows_c5_k00 (p0 p1 p2 p3 : ℝ) (h1 : 0 < p1) (h2 : 0 < p2) (h3 : 0 < p3) :
    rowsOf [p0, p1, p2, p3] [false, false] [(1 : ℝ)/2, 1/2] =
      [([0, 1], Real.log (p1/p0)), ([1, 0], Real.log (p2/p0)),
        ([1, 1], Real.log (p3/p0))] := by
  unfold rowsOf
  rw [show ([false, false] : List Bool).length = 2 from rfl, cis_c5, freeVars_c5,
    show indexB (Range 2) [false, false] = 0 from rfl, Range_two]
  norm_num [List.range_succ, List.filterMap_cons, h1, h2, h3]

theorem rows_c5_k01 (p0 p1 p2 p3 : ℝ) (h0 : 0 < p0) (h2 : 0 < p2) (h3 : 0 < p3) :
    rowsOf [p0, p1, p2, p3] [false, true] [(1 : ℝ)/2, 1/2] =
      [([0, 1], Real.log (p0/p1)), ([1, 1], Real.log (p2/p1)),
        ([1, 0], Real.log (p3/p1))] := by
  unfold rowsOf
  rw [show ([false, true] : List Bool).length = 2 from rfl, cis_c5, freeVars_c5,
    show indexB (Range 2) [false, true] = 1 from rfl, Range_two]
  norm_num [List.range_succ, List.filterMap_cons, h0, h2, h3]

theorem rows_c5_k10 (p0 p1 p2 p3 : ℝ) (h0 : 0 < p0) (h1 : 0 < p1) (h3 : 0 < p3) :
    rowsOf [p0, p1, p2, p3] [true, false] [(1 : ℝ)/2, 1/2] =
      [([1, 0], Real.log (p0/p2)), ([1, 1], Real.log (p1/p2)),
        ([0, 1], Real.log (p3/p2))] := by
  unfold rowsOf
  rw [show ([true, false] : List Bool).length = 2 from rfl, cis_c5, freeVars_c5,
    show indexB (Range 2) [true, false] = 2 from rfl, Range_two]
  norm_num [List.range_succ, List.filterMap_cons, h0, h1, h3]

theorem rows_c5_k11 (p0 p1 p2 p3 : ℝ) (h0 : 0 < p0) (h1 : 0 < p1) (h2 : 0 < p2) :
    rowsOf [p0, p1, p2, p3] [true, true] [(1 : ℝ)/2, 1/2] =
      [([1, 1], Real.log (p0/p3)), ([1, 0], Real.log (p1/p3)),
        ([0, 1], Real.log (p2/p3))] := by
  unfold rowsOf
  rw [show ([true, true] : List Bool).length = 2 from rfl, cis_c5, freeVars_c5,
    show indexB (Range 2) [true, true] = 3 from rfl, Range_two]
  norm_num [List.range_succ, List.filterMap_cons, h0, h1, h2]

/-! ### Generic single-row solver calls and the call list over positive `P` -/

theorem dotL_zero_right (a y : List ℝ) (hy : ∀ t ∈ y, t = 0) : dotL a y = 0 := by
  induction a generalizing y with
  | nil => simp [dotL]
  | cons x xs ih =>
    cases y with
    | nil => simp [dotL]
    | cons t ts =>
      have ht : t = 0 := hy t (List.mem_cons_self _ _)
      have hts : ∀ u ∈ ts, u = 0 := fun u hu => hy u (List.mem_cons_of_mem _ hu)
      simp only [dotL, List.zipWith_cons_cons, List.sum_cons] at *
      rw [ht, mul_zero, zero_add]
      exact ih ts hts

theorem critVal_singleton (pk β : ℝ) :
    critVal pk [β] = pk * (1 + Real.exp β) := by
  simp [critVal]

theorem cvh_single (P : List ℝ) (k : List Bool) (c : List ℝ) {ε : ℝ}
    (hε : 0 < ε) (β : ℝ)
    (hrows : rowsOf P k c = [([1], β)])
    (hfv : (freeVars c k.length).length = 1) :
    computeVerticesHoles P k c ε =
      some (P.getD (indexB (Range k.length) k) 0 * (1 + Real.exp β),
        reconstructQ k c [β]) := by
  have hverts : verticesOf P k c ε = [[β]] := by
    unfold verticesOf
    rw [hrows, hfv, show ([([(1 : ℝ)], β)] : List (List ℝ × ℝ)).length = 1 from rfl,
      show combinations 1 (List.range 1) = [[0]] from rfl]
    have h1 : vertexOfSubset [([1], β)] 1 ε [0] = some [β] := by
      unfold vertexOfSubset
      rw [show ([0] : List ℕ).map
            (fun i => (([([(1 : ℝ)], β)] : List (List ℝ × ℝ)).getD i ([], 0)).1) =
          [[1]] from rfl,
        show ([0] : List ℕ).map
            (fun i => (([([(1 : ℝ)], β)] : List (List ℝ × ℝ)).getD i ([], 0)).2) =
          [β] from rfl]
      rw [solveSquare_eq_some [β] (show ([β]).length = 1 from rfl)
        (by rw [Matrix.det_fin_one]; simp [List.getD])
        (by intro i; fin_cases i; simp [Fin.sum_univ_one, List.getD])]
      rw [Option.some_bind, if_pos]
      intro r hr
      rw [List.mem_singleton.1 hr]
      simp only [dotL, List.zipWith_cons_cons, List.zipWith_nil_right, List.sum_cons,
        List.sum_nil, one_mul, add_zero]
      linarith
    simp only [List.filterMap_cons, List.filterMap_nil, h1]
  rw [computeVerticesHoles_eq, hverts, List.map_cons, List.map_nil, critVal_singleton,
    show listMax [P.getD (indexB (Range k.length) k) 0 * (1 + Real.exp β)] =
      some (P.getD (indexB (Range k.length) k) 0 * (1 + Real.exp β)) from rfl,
    Option.map_some']
  rw [show indexOfR [P.getD (indexB (Range k.length) k) 0 * (1 + Real.exp β)]
      (P.getD (indexB (Range k.length) k) 0 * (1 + Real.exp β)) = 0 by simp [indexOfR]]
  rfl

theorem compatible_of_pos {c P : List ℝ} (h : ∀ j < P.length, P.getD j 0 ≠ 0) :
    compatible c P = true := by
  rw [compatible_eq_true_iff]
  rintro j hj ⟨h0, _⟩
  exact h j hj h0

theorem callsOf_pos (P : List ℝ) (hlen : P.length = 4)
    (hpos : ∀ j < P.length, P.getD j 0 ≠ 0) :
    callsOf P =
      [([(0 : ℝ), 1/2], [false, false]), ([(0 : ℝ), 1/2], [false, true]),
        ([(1 : ℝ), 1/2], [true, false]), ([(1 : ℝ), 1/2], [true, true]),
        ([(1 : ℝ)/2, 0], [false, false]), ([(1 : ℝ)/2, 0], [true, false]),
        ([(1 : ℝ)/2, 1], [false, true]), ([(1 : ℝ)/2, 1], [true, true]),
        ([(1 : ℝ)/2, 1/2], [false, false]), ([(1 : ℝ)/2, 1/2], [false, true]),
        ([(1 : ℝ)/2, 1/2], [true, false]), ([(1 : ℝ)/2, 1/2], [true, true])] := by
  have hcomp : ∀ c : List ℝ, compatible c P = true := fun c => compatible_of_pos hpos
  unfold callsOf
  rw [hlen, show Nat.log2 4 = 2 by norm_num [Nat.log2]]
  rw [show configs 2 =
    [[0, 0], [0, 1], [0, 1/2], [1, 0], [1, 1], [1, 1/2],
      [(1 : ℝ)/2, 0], [1/2, 1], [1/2, 1/2]] from rfl]
  have hfilter : List.filter (fun c => compatible c P && decide (0 < c.count (1/2)))
      [[0, 0], [0, 1], [0, 1/2], [1, 0], [1, 1], [1, 1/2],
        [(1 : ℝ)/2, 0], [1/2, 1], [1/2, 1/2]] =
      [[0, 1/2], [1, 1/2], [(1 : ℝ)/2, 0], [1/2, 1], [1/2, 1/2]] := by
    norm_num [List.filter_cons, List.filter_nil, hcomp, List.count_cons, List.count_nil]
  rw [hfilter]
  have g1 : (Range 2).filterMap (fun I =>
      if 0 < (createIndependentSource [(0 : ℝ), 1/2]).getD (indexB (Range 2) I) 0
      then some (([(0 : ℝ), 1/2], I)) else none) =
      [([(0 : ℝ), 1/2], [false, false]), ([(0 : ℝ), 1/2], [false, true])] := by
    rw [Range_two, cis_c1]
    norm_num [List.filterMap_cons, indexB]
  have g2 : (Range 2).filterMap (fun I =>
      if 0 < (createIndependentSource [(1 : ℝ), 1/2]).getD (indexB (Range 2) I) 0
      then some (([(1 : ℝ), 1/2], I)) else none) =
      [([(1 : ℝ), 1/2], [true, false]), ([(1 : ℝ), 1/2], [true, true])] := by
    rw [Range_two, cis_c2]
    norm_num [List.filterMap_cons, indexB]
  have g3 : (Range 2).filterMap (fun I =>
      if 0 < (createIndependentSource [(1 : ℝ)/2, 0]).getD (indexB (Range 2) I) 0
      then some (([(1 : ℝ)/2, 0], I)) else none) =
      [([(1 : ℝ)/2, 0], [false, false]), ([(1 : ℝ)/2, 0], [true, false])] := by
    rw [Range_two, cis_c3]
    norm_num [List.filterMap_cons, indexB]
  have g4 : (Range 2).filterMap (fun I =>
      if 0 < (createIndependentSource [(1 : ℝ)/2, 1]).getD (indexB (Range 2) I) 0
      then some (([(1 : ℝ)/2, 1], I)) else none) =
      [([(1 : ℝ)/2, 1], [false, true]), ([(1 : ℝ)/2, 1], [true, true])] := by
    rw [Range_two, cis_c4]
    norm_num [List.filterMap_cons, indexB]
  have g5 : (Range 2).filterMap (fun I =>
      if 0 < (createIndependentSource [(1 : ℝ)/2, 1/2]).getD (indexB (Range 2) I) 0
      then some (([(1 : ℝ)/2, 1/2], I)) else none) =
      [([(1 : ℝ)/2, 1/2], [false, false]), ([(1 : ℝ)/2, 1/2], [false, true]),
        ([(1 : ℝ)/2, 1/2], [true, false]), ([(1 : ℝ)/2, 1/2], [true, true])] := by
    rw [Range_two, cis_c5]
    norm_num [List.filterMap_cons, indexB]
  rw [List.flatMap_cons, List.flatMap_cons, List.flatMap_cons, List.flatMap_cons,
    List.flatMap_cons, List.flatMap_nil, g1, g2, g3, g4, g5]
  rfl

/-! ### Evaluation on the uniform distribution (claim C1) -/

theorem vos_zero₂ (rows : List (List ℝ × ℝ)) {ε : ℝ} (hε : 0 < ε)
    (hb : ∀ r ∈ rows, r.2 = 0) (s : List ℕ)
    (hdet : (Matrix.of fun i j : Fin 2 =>
      ((s.map fun m => (rows.getD m ([], 0)).1).getD i []).getD j 0).det ≠ 0) :
    vertexOfSubset rows 2 ε s = some [0, 0] := by
  have hb' : ∀ m : ℕ, (rows.getD m ([], 0)).2 = 0 := by
    intro m
    by_cases h : m < rows.length
    · rw [List.getD_eq_getElem _ _ h]
      exact hb _ (List.getElem_mem h)
    · rw [List.getD_eq_default _ _ (le_of_not_lt h)]
  have hbl : ∀ i : Fin 2, ((s.map fun m => (rows.getD m ([], 0)).2).getD i 0) = 0 := by
    intro i
    by_cases h : (i : ℕ) < s.length
    · rw [List.getD_eq_getElem _ _ (by simpa using h), List.getElem_map]
      exact hb' _
    · rw [List.getD_eq_default _ _ (by simpa using le_of_not_lt h)]
  have hsolve : solveSquare 2 (s.map fun m => (rows.getD m ([], 0)).1)
      (s.map fun m => (rows.getD m ([], 0)).2) = some [0, 0] := by
    apply solveSquare_eq_some [0, 0] (show ([(0 : ℝ), 0]).length = 2 from rfl) hdet
    intro i
    rw [hbl i]
    simp [Fin.sum_univ_two, List.getD]
  unfold vertexOfSubset
  rw [hsolve, Option.some_bind, if_pos]
  intro r hr
  rw [hb _ hr, dotL_zero_right r.1 [0, 0] (by
    intro t ht
    simp only [List.mem_cons, List.not_mem_nil, or_false] at ht
    rcases ht with rfl | rfl <;> rfl)]
  linarith

theorem rows_u_c1_k00 :
    rowsOf [(1 : ℝ)/4, 1/4, 1/4, 1/4] [false, false] [(0 : ℝ), 1/2] =
      [([1], 0)] := by
  have h := rows_c1_k00 (1/4) (1/4) (1/4) (1/4) (by norm_num)
  norm_num at h
  exact h

theorem rows_u_c1_k01 :
    rowsOf [(1 : ℝ)/4, 1/4, 1/4, 1/4] [false, true] [(0 : ℝ), 1/2] =
      [([1], 0)] := by
  have h := rows_c1_k01 (1/4) (1/4) (1/4) (1/4) (by norm_num)
  norm_num at h
  exact h

theorem rows_u_c2_k10 :
    rowsOf [(1 : ℝ)/4, 1/4, 1/4, 1/4] [true, false] [(1 : ℝ), 1/2] =
      [([1], 0)] := by
  have h := rows_c2_k10 (1/4) (1/4) (1/4) (1/4) (by norm_num)
  norm_num at h
  exact h

theorem rows_u_c2_k11 :
    rowsOf [(1 : ℝ)/4, 1/4, 1/4, 1/4] [true, true] [(1 : ℝ), 1/2] =
      [([1], 0)] := by
  have h := rows_c2_k11 (1/4) (1/4) (1/4) (1/4) (by norm_num)
  norm_num at h
  exact h

theorem rows_u_c3_k00 :
    rowsOf [(1 : ℝ)/4, 1/4, 1/4, 1/4] [false, false] [(1 : ℝ)/2, 0] =
      [([1], 0)] := by
  have h := rows_c3_k00 (1/4) (1/4) (1/4) (1/4) (by norm_num)
  norm_num at h
  exact h

theorem rows_u_c3_k10 :
    rowsOf [(1 : ℝ)/4, 1/4, 1/4, 1/4] [true, false] [(1 : ℝ)/2, 0] =
      [([1], 0)] := by
  have h := rows_c3_k10 (1/4) (1/4) (1/4) (1/4) (by norm_num)
  norm_num at h
  exact h

theorem rows_u_c4_k01 :
    rowsOf [(1 : ℝ)/4, 1/4, 1/4, 1/4] [false, true] [(1 : ℝ)/2, 1] =
      [([1], 0)] := by
  have h := rows_c4_k01 (1/4) (1/4) (1/4) (1/4) (by norm_num)
  norm_num at h
  exact h

theorem rows_u_c4_k11 :
    rowsOf [(1 : ℝ)/4, 1/4, 1/4, 1/4] [true, true] [(1 : ℝ)/2, 1] =
      [([1], 0)] := by
  have h := rows_c4_k11 (1/4) (1/4) (1/4) (1/4) (by norm_num)
  norm_num at h
  exact h

theorem rows_u_c5_k00 :
    rowsOf [(1 : ℝ)/4, 1/4, 1/4, 1/4] [false, false] [(1 : ℝ)/2, 1/2] =
      [([0, 1], 0), ([1, 0], 0), ([1, 1], 0)] := by
  have h := rows_c5_k00 (1/4) (1/4) (1/4) (1/4) (by norm_num) (by norm_num)
    (by norm_num)
  norm_num at h
  exact h

theorem rows_u_c5_k01 :
    rowsOf [(1 : ℝ)/4, 1/4, 1/4, 1/4] [false, true] [(1 : ℝ)/2, 1/2] =
      [([0, 1], 0), ([1, 1], 0), ([1, 0], 0)] := by
  have h := rows_c5_k01 (1/4) (1/4) (1/4) (1/4) (by norm_num) (by norm_num)
    (by norm_num)
  norm_num at h
  exact h

theorem rows_u_c5_k10 :
    rowsOf [(1 : ℝ)/4, 1/4, 1/4, 1/4] [true, false] [(1 : ℝ)/2, 1/2] =
      [([1, 0], 0), ([1, 1], 0), ([0, 1], 0)] := by
  have h := rows_c5_k10 (1/4) (1/4) (1/4) (1/4) (by norm_num) (by norm_num)
    (by norm_num)
  norm_num at h
  exact h

theorem rows_u_c5_k11 :
    rowsOf [(1 : ℝ)/4, 1/4, 1/4, 1/4] [true, true] [(1 : ℝ)/2, 1/2] =
      [([1, 1], 0), ([1, 0], 0), ([0, 1], 0)] := by
  have h := rows_c5_k11 (1/4) (1/4) (1/4) (1/4) (by norm_num) (by norm_num)
    (by norm_num)
  norm_num at h
  exact h

theorem rq_c1 (k : List Bool) (hk : k.length = 2) :
    reconstructQ k [(0 : ℝ), 1/2] [0] = [0, 1/2] := by
  unfold reconstructQ
  rw [hk, freeVars_c1]
  norm_num [List.range_succ, indexN, Real.exp_zero, Real.one_rpow]

theorem rq_c2 (k : List Bool) (hk : k.length = 2) :
    reconstructQ k [(1 : ℝ), 1/2] [0] = [1, 1/2] := by
  unfold reconstructQ
  rw [hk, freeVars_c2]
  norm_num [List.range_succ, indexN, Real.exp_zero, Real.one_rpow]

theorem rq_c3 (k : List Bool) (hk : k.length = 2) :
    reconstructQ k [(1 : ℝ)/2, 0] [0] = [1/2, 0] := by
  unfold reconstructQ
  rw [hk, freeVars_c3]
  norm_num [List.range_succ, indexN, Real.exp_zero, Real.one_rpow]

theorem rq_c4 (k : List Bool) (hk : k.length = 2) :
    reconstructQ k [(1 : ℝ)/2, 1] [0] = [1/2, 1] := by
  unfold reconstructQ
  rw [hk, freeVars_c4]
  norm_num [List.range_succ, indexN, Real.exp_zero, Real.one_rpow]

theorem rq_c5 (k : List Bool) (hk : k.length = 2) :
    reconstructQ k [(1 : ℝ)/2, 1/2] [0, 0] = [1/2, 1/2] := by
  unfold reconstructQ
  rw [hk, freeVars_c5]
  norm_num [List.range_succ, indexN, Real.exp_zero, Real.one_rpow]

theorem cvh_u_c1_k00 :
    computeVerticesHoles [(1 : ℝ)/4, 1/4, 1/4, 1/4] [false, false] [(0 : ℝ), 1/2]
      (1/100000) = some (1/2, [0, 1/2]) := by
  refine (cvh_single _ _ _ (by norm_num) 0 rows_u_c1_k00 ?_).trans ?_
  · rw [show ([false, false] : List Bool).length = 2 from rfl, freeVars_c1]
    rfl
  · rw [rq_c1 [false, false] rfl,
      show indexB (Range ([false, false] : List Bool).length) [false, false] = 0
        from rfl,
      show ([(1 : ℝ)/4, 1/4, 1/4, 1/4]).getD 0 0 = 1/4 from rfl]
    norm_num [Real.exp_zero]

theorem cvh_u_c1_k01 :
    computeVerticesHoles [(1 : ℝ)/4, 1/4, 1/4, 1/4] [false, true] [(0 : ℝ), 1/2]
      (1/100000) = some (1/2, [0, 1/2]) := by
  refine (cvh_single _ _ _ (by norm_num) 0 rows_u_c1_k01 ?_).trans ?_
  · rw [show ([false, true] : List Bool).length = 2 from rfl, freeVars_c1]
    rfl
  · rw [rq_c1 [false, true] rfl,
      show indexB (Range ([false, true] : List Bool).length) [false, true] = 1
        from rfl,
      show ([(1 : ℝ)/4, 1/4, 1/4, 1/4]).getD 1 0 = 1/4 from rfl]
    norm_num [Real.exp_zero]

theorem cvh_u_c2_k10 :
    computeVerticesHoles [(1 : ℝ)/4, 1/4, 1/4, 1/4] [true, false] [(1 : ℝ), 1/2]
      (1/100000) = some (1/2, [1, 1/2]) := by
  refine (cvh_single _ _ _ (by norm_num) 0 rows_u_c2_k10 ?_).trans ?_
  · rw [show ([true, false] : List Bool).length = 2 from rfl, freeVars_c2]
    rfl
  · rw [rq_c2 [true, false] rfl,
      show indexB (Range ([true, false] : List Bool).length) [true, false] = 2
        from rfl,
      show ([(1 : ℝ)/4, 1/4, 1/4, 1/4]).getD 2 0 = 1/4 from rfl]
    norm_num [Real.exp_zero]

theorem cvh_u_c2_k11 :
    computeVerticesHoles [(1 : ℝ)/4, 1/4, 1/4, 1/4] [true, true] [(1 : ℝ), 1/2]
      (1/100000) = some (1/2, [1, 1/2]) := by
  refine (cvh_single _ _ _ (by norm_num) 0 rows_u_c2_k11 ?_).trans ?_
  · rw [show ([true, true] : List Bool).length = 2 from rfl, freeVars_c2]
    rfl
  · rw [rq_c2 [true, true] rfl,
      show indexB (Range ([true, true] : List Bool).length) [true, true] = 3
        from rfl,
      show ([(1 : ℝ)/4, 1/4, 1/4, 1/4]).getD 3 0 = 1/4 from rfl]
    norm_num [Real.exp_zero]

theorem cvh_u_c3_k00 :
    computeVerticesHoles [(1 : ℝ)/4, 1/4, 1/4, 1/4] [false, false] [(1 : ℝ)/2, 0]
      (1/100000) = some (1/2, [1/2, 0]) := by
  refine (cvh_single _ _ _ (by norm_num) 0 rows_u_c3_k00 ?_).trans ?_
  · rw [show ([false, false] : List Bool).length = 2 from rfl, freeVars_c3]
    rfl
  · rw [rq_c3 [false, false] rfl,
      show indexB (Range ([false, false] : List Bool).length) [false, false] = 0
        from rfl,
      show ([(1 : ℝ)/4, 1/4, 1/4, 1/4]).getD 0 0 = 1/4 from rfl]
    norm_num [Real.exp_zero]

theorem cvh_u_c3_k10 :
    computeVerticesHoles [(1 : ℝ)/4, 1/4, 1/4, 1/4] [true, false] [(1 : ℝ)/2, 0]
      (1/100000) = some (1/2, [1/2, 0]) := by
  refine (cvh_single _ _ _ (by norm_num) 0 rows_u_c3_k10 ?_).trans ?_
  · rw [show ([true, false] : List Bool).length = 2 from rfl, freeVars_c3]
    rfl
  · rw [rq_c3 [true, false] rfl,
      show indexB (Range ([true, false] : List Bool).length) [true, false] = 2
        from rfl,
      show ([(1 : ℝ)/4, 1/4, 1/4, 1/4]).getD 2 0 = 1/4 from rfl]
    norm_num [Real.exp_zero]

theorem cvh_u_c4_k01 :
    computeVerticesHoles [(1 : ℝ)/4, 1/4, 1/4, 1/4] [false, true] [(1 : ℝ)/2, 1]
      (1/100000) = some (1/2, [1/2, 1]) := by
  refine (cvh_single _ _ _ (by norm_num) 0 rows_u_c4_k01 ?_).trans ?_
  · rw [show ([false, true] : List Bool).length = 2 from rfl, freeVars_c4]
    rfl
  · rw [rq_c4 [false, true] rfl,
      show indexB (Range ([false, true] : List Bool).length) [false, true] = 1
        from rfl,
      show ([(1 : ℝ)/4, 1/4, 1/4, 1/4]).getD 1 0 = 1/4 from rfl]
    norm_num [Real.exp_zero]

theorem cvh_u_c4_k11 :
    computeVerticesHoles [(1 : ℝ)/4, 1/4, 1/4, 1/4] [true, true] [(1 : ℝ)/2, 1]
      (1/100000) = some (1/2, [1/2, 1]) := by
  refine (cvh_single _ _ _ (by norm_num) 0 rows_u_c4_k11 ?_).trans ?_
  · rw [show ([true, true] : List Bool).length = 2 from rfl, freeVars_c4]
    rfl
  · rw [rq_c4 [true, true] rfl,
      show indexB (Range ([true, true] : List Bool).length) [true, true] = 3
        from rfl,
      show ([(1 : ℝ)/4, 1/4, 1/4, 1/4]).getD 3 0 = 1/4 from rfl]
    norm_num [Real.exp_zero]

theorem hb_three (r1 r2 r3 : List ℝ) :
    ∀ r ∈ [(r1, (0 : ℝ)), (r2, 0), (r3, 0)], r.2 = 0 := by
  intro r hr
  simp only [List.mem_cons, List.not_mem_nil, or_false] at hr
  rcases hr with rfl | rfl | rfl <;> rfl

theorem critVal_pair_one : critVal ((1 : ℝ)/4) [0, 0] = 1 := by
  simp [critVal, Real.exp_zero]
  norm_num

theorem cvh_u_c5_k00 :
    computeVerticesHoles [(1 : ℝ)/4, 1/4, 1/4, 1/4] [false, false]
      [(1 : ℝ)/2, 1/2] (1/100000) = some (1, [1/2, 1/2]) := by
  have h01 := vos_zero₂ [([0, 1], (0 : ℝ)), ([1, 0], 0), ([1, 1], 0)]
    (by norm_num : (0 : ℝ) < 1/100000) (hb_three _ _ _) [0, 1]
    (by rw [Matrix.det_fin_two]; show ((0 : ℝ) * 0 - 1 * 1) ≠ 0; norm_num)
  have h02 := vos_zero₂ [([0, 1], (0 : ℝ)), ([1, 0], 0), ([1, 1], 0)]
    (by norm_num : (0 : ℝ) < 1/100000) (hb_three _ _ _) [0, 2]
    (by rw [Matrix.det_fin_two]; show ((0 : ℝ) * 1 - 1 * 1) ≠ 0; norm_num)
  have h12 := vos_zero₂ [([0, 1], (0 : ℝ)), ([1, 0], 0), ([1, 1], 0)]
    (by norm_num : (0 : ℝ) < 1/100000) (hb_three _ _ _) [1, 2]
    (by rw [Matrix.det_fin_two]; show ((1 : ℝ) * 1 - 0 * 1) ≠ 0; norm_num)
  have hverts : verticesOf [(1 : ℝ)/4, 1/4, 1/4, 1/4] [false, false]
      [(1 : ℝ)/2, 1/2] (1/100000) = [[0, 0], [0, 0], [0, 0]] := by
    unfold verticesOf
    rw [show ([false, false] : List Bool).length = 2 from rfl, freeVars_c5,
      rows_u_c5_k00, show ([0, 1] : List ℕ).length = 2 from rfl,
      show ([([0, 1], (0 : ℝ)), ([1, 0], 0), ([1, 1], 0)] :
        List (List ℝ × ℝ)).length = 3 from rfl,
      show combinations 2 (List.range 3) = [[0, 1], [0, 2], [1, 2]] from rfl]
    simp only [List.filterMap_cons, List.filterMap_nil, h01, h02, h12]
  rw [computeVerticesHoles_eq, hverts,
    show ([false, false] : List Bool).length = 2 from rfl,
    show indexB (Range 2) [false, false] = 0 from rfl,
    show ([(1 : ℝ)/4, 1/4, 1/4, 1/4]).getD 0 0 = 1/4 from rfl,
    List.map_cons, List.map_cons, List.map_cons, List.map_nil, critVal_pair_one,
    show listMax [(1 : ℝ), 1, 1] = some 1 by simp [listMax],
    Option.map_some', show indexOfR [(1 : ℝ), 1, 1] 1 = 0 by simp [indexOfR],
    show ([[0, 0], [0, 0], [0, 0]] : List (List ℝ)).getD 0 [] = [0, 0] from rfl,
    rq_c5 [false, false] rfl]

theorem cvh_u_c5_k01 :
    computeVerticesHoles [(1 : ℝ)/4, 1/4, 1/4, 1/4] [false, true]
      [(1 : ℝ)/2, 1/2] (1/100000) = some (1, [1/2, 1/2]) := by
  have h01 := vos_zero₂ [([0, 1], (0 : ℝ)), ([1, 1], 0), ([1, 0], 0)]
    (by norm_num : (0 : ℝ) < 1/100000) (hb_three _ _ _) [0, 1]
    (by rw [Matrix.det_fin_two]; show ((0 : ℝ) * 1 - 1 * 1) ≠ 0; norm_num)
  have h02 := vos_zero₂ [([0, 1], (0 : ℝ)), ([1, 1], 0), ([1, 0], 0)]
    (by norm_num : (0 : ℝ) < 1/100000) (hb_three _ _ _) [0, 2]
    (by rw [Matrix.det_fin_two]; show ((0 : ℝ) * 0 - 1 * 1) ≠ 0; norm_num)
  have h12 := vos_zero₂ [([0, 1], (0 : ℝ)), ([1, 1], 0), ([1, 0], 0)]
    (by norm_num : (0 : ℝ) < 1/100000) (hb_three _ _ _) [1, 2]
    (by rw [Matrix.det_fin_two]; show ((1 : ℝ) * 0 - 1 * 1) ≠ 0; norm_num)
  have hverts : verticesOf [(1 : ℝ)/4, 1/4, 1/4, 1/4] [false, true]
      [(1 : ℝ)/2, 1/2] (1/100000) = [[0, 0], [0, 0], [0, 0]] := by
    unfold verticesOf
    rw [show ([false, true] : List Bool).length = 2 from rfl, freeVars_c5,
      rows_u_c5_k01, show ([0, 1] : List ℕ).length = 2 from rfl,
      show ([([0, 1], (0 : ℝ)), ([1, 1], 0), ([1, 0], 0)] :
        List (List ℝ × ℝ)).length = 3 from rfl,
      show combinations 2 (List.range 3) = [[0, 1], [0, 2], [1, 2]] from rfl]
    simp only [List.filterMap_cons, List.filterMap_nil, h01, h02, h12]
  rw [computeVerticesHoles_eq, hverts,
    show ([false, true] : List Bool).length = 2 from rfl,
    show indexB (Range 2) [false, true] = 1 from rfl,
    show ([(1 : ℝ)/4, 1/4, 1/4, 1/4]).getD 1 0 = 1/4 from rfl,
    List.map_cons, List.map_cons, List.map_cons, List.map_nil, critVal_pair_one,
    show listMax [(1 : ℝ), 1, 1] = some 1 by simp [listMax],
    Option.map_some', show indexOfR [(1 : ℝ), 1, 1] 1 = 0 by simp [indexOfR],
    show ([[0, 0], [0, 0], [0, 0]] : List (List ℝ)).getD 0 [] = [0, 0] from rfl,
    rq_c5 [false, true] rfl]

theorem cvh_u_c5_k10 :
    computeVerticesHoles [(1 : ℝ)/4, 1/4, 1/4, 1/4] [true, false]
      [(1 : ℝ)/2, 1/2] (1/100000) = some (1, [1/2, 1/2]) := by
  have h01 := vos_zero₂ [([1, 0], (0 : ℝ)), ([1, 1], 0), ([0, 1], 0)]
    (by norm_num : (0 : ℝ) < 1/100000) (hb_three _ _ _) [0, 1]
    (by rw [Matrix.det_fin_two]; show ((1 : ℝ) * 1 - 0 * 1) ≠ 0; norm_num)
  have h02 := vos_zero₂ [([1, 0], (0 : ℝ)), ([1, 1], 0), ([0, 1], 0)]
    (by norm_num : (0 : ℝ) < 1/100000) (hb_three _ _ _) [0, 2]
    (by rw [Matrix.det_fin_two]; show ((1 : ℝ) * 1 - 0 * 0) ≠ 0; norm_num)
  have h12 := vos_zero₂ [([1, 0], (0 : ℝ)), ([1, 1], 0), ([0, 1], 0)]
    (by norm_num : (0 : ℝ) < 1/100000) (hb_three _ _ _) [1, 2]
    (by rw [Matrix.det_fin_two]; show ((1 : ℝ) * 1 - 1 * 0) ≠ 0; norm_num)
  have hverts : verticesOf [(1 : ℝ)/4, 1/4, 1/4, 1/4] [true, false]
      [(1 : ℝ)/2, 1/2] (1/100000) = [[0, 0], [0, 0], [0, 0]] := by
    unfold verticesOf
    rw [show ([true, false] : List Bool).length = 2 from rfl, freeVars_c5,
      rows_u_c5_k10, show ([0, 1] : List ℕ).length = 2 from rfl,
      show ([([1, 0], (0 : ℝ)), ([1, 1], 0), ([0, 1], 0)] :
        List (List ℝ × ℝ)).length = 3 from rfl,
      show combinations 2 (List.range 3) = [[0, 1], [0, 2], [1, 2]] from rfl]
    simp only [List.filterMap_cons, List.filterMap_nil, h01, h02, h12]
  rw [computeVerticesHoles_eq, hverts,
    show ([true, false] : List Bool).length = 2 from rfl,
    show indexB (Range 2) [true, false] = 2 from rfl,
    show ([(1 : ℝ)/4, 1/4, 1/4, 1/4]).getD 2 0 = 1/4 from rfl,
    List.map_cons, List.map_cons, List.map_cons, List.map_nil, critVal_pair_one,
    show listMax [(1 : ℝ), 1, 1] = some 1 by simp [listMax],
    Option.map_some', show indexOfR [(1 : ℝ), 1, 1] 1 = 0 by simp [indexOfR],
    show ([[0, 0], [0, 0], [0, 0]] : List (List ℝ)).getD 0 [] = [0, 0] from rfl,
    rq_c5 [true, false] rfl]

theorem cvh_u_c5_k11 :
    computeVerticesHoles [(1 : ℝ)/4, 1/4, 1/4, 1/4] [true, true]
      [(1 : ℝ)/2, 1/2] (1/100000) = some (1, [1/2, 1/2]) := by
  have h01 := vos_zero₂ [([1, 1], (0 : ℝ)), ([1, 0], 0), ([0, 1], 0)]
    (by norm_num : (0 : ℝ) < 1/100000) (hb_three _ _ _) [0, 1]
    (by rw [Matrix.det_fin_two]; show ((1 : ℝ) * 0 - 1 * 1) ≠ 0; norm_num)
  have h02 := vos_zero₂ [([1, 1], (0 : ℝ)), ([1, 0], 0), ([0, 1], 0)]
    (by norm_num : (0 : ℝ) < 1/100000) (hb_three _ _ _) [0, 2]
    (by rw [Matrix.det_fin_two]; show ((1 : ℝ) * 1 - 1 * 0) ≠ 0; norm_num)
  have h12 := vos_zero₂ [([1, 1], (0 : ℝ)), ([1, 0], 0), ([0, 1], 0)]
    (by norm_num : (0 : ℝ) < 1/100000) (hb_three _ _ _) [1, 2]
    (by rw [Matrix.det_fin_two]; show ((1 : ℝ) * 1 - 0 * 0) ≠ 0; norm_num)
  have hverts : verticesOf [(1 : ℝ)/4, 1/4, 1/4, 1/4] [true, true]
      [(1 : ℝ)/2, 1/2] (1/100000) = [[0, 0], [0, 0], [0, 0]] := by
    unfold verticesOf
    rw [show ([true, true] : List Bool).length = 2 from rfl, freeVars_c5,
      rows_u_c5_k11, show ([0, 1] : List ℕ).length = 2 from rfl,
      show ([([1, 1], (0 : ℝ)), ([1, 0], 0), ([0, 1], 0)] :
        List (List ℝ × ℝ)).length = 3 from rfl,
      show combinations 2 (List.range 3) = [[0, 1], [0, 2], [1, 2]] from rfl]
    simp only [List.filterMap_cons, List.filterMap_nil, h01, h02, h12]
  rw [computeVerticesHoles_eq, hverts,
    show ([true, true] : List Bool).length = 2 from rfl,
    show indexB (Range 2) [true, true] = 3 from rfl,
    show ([(1 : ℝ)/4, 1/4, 1/4, 1/4]).getD 3 0 = 1/4 from rfl,
    List.map_cons, List.map_cons, List.map_cons, List.map_nil, critVal_pair_one,
    show listMax [(1 : ℝ), 1, 1] = some 1 by simp [listMax],
    Option.map_some', show indexOfR [(1 : ℝ), 1, 1] 1 = 0 by simp [indexOfR],
    show ([[0, 0], [0, 0], [0, 0]] : List (List ℝ)).getD 0 [] = [0, 0] from rfl,
    rq_c5 [true, true] rfl]

theorem indWeight_uniform :
    indWeightHoles [(1 : ℝ)/4, 1/4, 1/4, 1/4] = some (1, [1/2, 1/2]) := by
  have hpos : ∀ j < ([(1 : ℝ)/4, 1/4, 1/4, 1/4]).length,
      ([(1 : ℝ)/4, 1/4, 1/4, 1/4]).getD j 0 ≠ 0 := by
    intro j hj
    simp only [List.length_cons, List.length_nil] at hj
    interval_cases j <;> · show (1 : ℝ)/4 ≠ 0; norm_num
  have hcalls := callsOf_pos [(1 : ℝ)/4, 1/4, 1/4, 1/4] rfl hpos
  have hrun : runCalls [(1 : ℝ)/4, 1/4, 1/4, 1/4]
      [([(0 : ℝ), 1/2], [false, false]), ([(0 : ℝ), 1/2], [false, true]),
        ([(1 : ℝ), 1/2], [true, false]), ([(1 : ℝ), 1/2], [true, true]),
        ([(1 : ℝ)/2, 0], [false, false]), ([(1 : ℝ)/2, 0], [true, false]),
        ([(1 : ℝ)/2, 1], [false, true]), ([(1 : ℝ)/2, 1], [true, true]),
        ([(1 : ℝ)/2, 1/2], [false, false]), ([(1 : ℝ)/2, 1/2], [false, true]),
        ([(1 : ℝ)/2, 1/2], [true, false]), ([(1 : ℝ)/2, 1/2], [true, true])] =
      some [(1/2, [0, 1/2]), (1/2, [0, 1/2]), (1/2, [1, 1/2]), (1/2, [1, 1/2]),
        (1/2, [1/2, 0]), (1/2, [1/2, 0]), (1/2, [1/2, 1]), (1/2, [1/2, 1]),
        (1, [1/2, 1/2]), (1, [1/2, 1/2]), (1, [1/2, 1/2]), (1, [1/2, 1/2])] := by
    simp only [runCalls, cvh_u_c1_k00, cvh_u_c1_k01, cvh_u_c2_k10, cvh_u_c2_k11,
      cvh_u_c3_k00, cvh_u_c3_k10, cvh_u_c4_k01, cvh_u_c4_k11,
      cvh_u_c5_k00, cvh_u_c5_k01, cvh_u_c5_k10, cvh_u_c5_k11,
      Option.some_bind, Option.map_some']
  unfold indWeightHoles
  rw [hcalls, hrun, Option.some_bind,
    show ([((1 : ℝ)/2, [(0 : ℝ), 1/2]), (1/2, [0, 1/2]), (1/2, [1, 1/2]),
        (1/2, [1, 1/2]), (1/2, [1/2, 0]), (1/2, [1/2, 0]), (1/2, [1/2, 1]),
        (1/2, [1/2, 1]), (1, [1/2, 1/2]), (1, [1/2, 1/2]), (1, [1/2, 1/2]),
        (1, [1/2, 1/2])] : List (ℝ × List ℝ)).map Prod.fst =
      [1/2, 1/2, 1/2, 1/2, 1/2, 1/2, 1/2, 1/2, 1, 1, 1, 1] from rfl,
    show listMax [(1 : ℝ)/2, 1/2, 1/2, 1/2, 1/2, 1/2, 1/2, 1/2, 1, 1, 1, 1] =
      some 1 by norm_num [listMax, List.foldl_cons, List.foldl_nil, max_def],
    Option.map_some',
    show indexOfR [(1 : ℝ)/2, 1/2, 1/2, 1/2, 1/2, 1/2, 1/2, 1/2, 1, 1, 1, 1] 1 = 8
      by norm_num [indexOfR]]
  rfl

/-- C1: for the uniform distribution over `{0,1}^2`,
`indWeightHoles([0.25, 0.25, 0.25, 0.25])` returns the independent weight
`λ = 1.0` together with the parameter vector `[0.5, 0.5]`. -/
theorem claim1_uniform_self_independent :
    indWeightHoles [(1 : ℝ)/4, 1/4, 1/4, 1/4] = some (1, [1/2, 1/2]) :=
  indWeight_uniform

/-! ### Claim C7: bounds on the returned weight -/

theorem getD_nonneg {P : List ℝ} (hP : ∀ x ∈ P, 0 ≤ x) (j : ℕ) :
    0 ≤ P.getD j 0 := by
  by_cases hj : j < P.length
  · rw [List.getD_eq_getElem P 0 hj]
    exact hP _ (List.getElem_mem hj)
  · rw [List.getD_eq_default P 0 (Nat.le_of_not_lt hj)]

theorem critVal_nonneg {pk : ℝ} (hpk : 0 ≤ pk) (y : List ℝ) :
    0 ≤ critVal pk y := by
  unfold critVal
  refine mul_nonneg hpk (le_of_lt (List.prod_pos ?_))
  intro x hx
  obtain ⟨t, _, rfl⟩ := List.mem_map.1 hx
  positivity

theorem cvh_fst_nonneg {P : List ℝ} (hP : ∀ x ∈ P, 0 ≤ x) {k : List Bool}
    {c : List ℝ} {ε : ℝ} {r : ℝ × List ℝ}
    (h : computeVerticesHoles P k c ε = some r) : 0 ≤ r.1 := by
  rw [computeVerticesHoles_eq] at h
  obtain ⟨M, hmax, hM⟩ := Option.map_eq_some'.1 h
  have hfst : r.1 = M := (congrArg Prod.fst hM).symm
  obtain ⟨y, _, hy⟩ := List.mem_map.1 (listMax_mem hmax)
  rw [hfst, ← hy]
  exact critVal_nonneg (getD_nonneg hP _) y

theorem runCalls_mem {P : List ℝ} {l : List (List ℝ × List Bool)}
    {rs : List (ℝ × List ℝ)} (h : runCalls P l = some rs)
    {r : ℝ × List ℝ} (hr : r ∈ rs) :
    ∃ ci ∈ l, computeVerticesHoles P ci.2 ci.1 (1/100000) = some r := by
  induction l generalizing rs with
  | nil =>
    unfold runCalls at h
    obtain rfl := Option.some.inj h
    cases hr
  | cons ci rest ih =>
    unfold runCalls at h
    obtain ⟨r₀, hr₀, hrest⟩ := Option.bind_eq_some.1 h
    obtain ⟨rs', hrs', hcons⟩ := Option.map_eq_some'.1 hrest
    subst hcons
    rcases List.mem_cons.1 hr with rfl | hr'
    · exact ⟨ci, List.mem_cons_self _ _, hr₀⟩
    · obtain ⟨ci', hci', hv⟩ := ih hrs' hr'
      exact ⟨ci', List.mem_cons_of_mem _ hci', hv⟩

/-- C7 (amended): for every valid distribution `P` for which
`indWeightHoles` returns a value at all, the returned scalar satisfies
`0 ≤ λ`; the upper bound `λ ≤ 1` of the original claim fails (the
feasibility tolerance `ε` can push the maximum objective slightly above 1,
see the counterexample). -/
theorem claim7_lambda_nonneg (P : List ℝ) (hP : ∀ x ∈ P, 0 ≤ x)
    (hsum : P.sum = 1) :
    ∀ lam q, indWeightHoles P = some (lam, q) → 0 ≤ lam := by
  intro lam q h
  unfold indWeightHoles at h
  obtain ⟨rs, hrs, hmap⟩ := Option.bind_eq_some.1 h
  obtain ⟨M, hmax, hM⟩ := Option.map_eq_some'.1 hmap
  have hfst : lam = M := (congrArg Prod.fst hM).symm
  subst hfst
  obtain ⟨r, hrmem, hr⟩ := List.mem_map.1 (listMax_mem hmax)
  obtain ⟨ci, _, hcall⟩ := runCalls_mem hrs hrmem
  rw [← hr]
  exact cvh_fst_nonneg hP hcall

/-- Witness for the amended C7: on the uniform distribution the search
returns `λ = 1`, and the theorem yields `0 ≤ 1` for it. -/
theorem claim7_witness :
    0 ≤ resultObj (indWeightHoles [(1 : ℝ)/4, 1/4, 1/4, 1/4]) := by
  rw [indWeight_uniform]
  unfold resultObj
  rw [Option.getD_some]
  exact claim7_lambda_nonneg [(1 : ℝ)/4, 1/4, 1/4, 1/4] (by norm_num)
    (by norm_num [List.sum_cons, List.sum_nil]) 1 [1/2, 1/2] indWeight_uniform

/-! ### The C7 counterexample: a valid distribution with returned `λ > 1`.
`P = [999999, 1000001, 1000001, 999999] / 4000000`; the tolerance `ε = 1e-5` accepts
the vertex solving the two single-flip rows exactly while the double-flip
row is violated by `2·log(1000001/999999) < ε`, which pushes the objective
to `1000000/999999 > 1`. -/

theorem log_ratio_up_small :
    2 * Real.log ((1000001 : ℝ)/999999) ≤ 1/100000 := by
  have h := Real.log_le_sub_one_of_pos
    (show (0 : ℝ) < 1000001/999999 by norm_num)
  have h2 : (1000001 : ℝ)/999999 - 1 = 2/999999 := by norm_num
  rw [h2] at h
  linarith

theorem log_ratio_down_nonpos : Real.log ((999999 : ℝ)/1000001) ≤ 0 :=
  Real.log_nonpos (by norm_num) (by norm_num)

theorem rows_7_c5_k00 :
    rowsOf [(999999 : ℝ)/4000000, 1000001/4000000, 1000001/4000000,
        999999/4000000] [false, false] [(1 : ℝ)/2, 1/2] =
      [([0, 1], Real.log (1000001/999999)),
        ([1, 0], Real.log (1000001/999999)), ([1, 1], 0)] := by
  have h := rows_c5_k00 (999999/4000000) (1000001/4000000) (1000001/4000000)
    (999999/4000000) (by norm_num) (by norm_num) (by norm_num)
  norm_num at h
  exact h

theorem rows_7_c5_k01 :
    rowsOf [(999999 : ℝ)/4000000, 1000001/4000000, 1000001/4000000,
        999999/4000000] [false, true] [(1 : ℝ)/2, 1/2] =
      [([0, 1], Real.log (999999/1000001)), ([1, 1], 0),
        ([1, 0], Real.log (999999/1000001))] := by
  have h := rows_c5_k01 (999999/4000000) (1000001/4000000) (1000001/4000000)
    (999999/4000000) (by norm_num) (by norm_num) (by norm_num)
  norm_num at h
  exact h

theorem rows_7_c5_k10 :
    rowsOf [(999999 : ℝ)/4000000, 1000001/4000000, 1000001/4000000,
        999999/4000000] [true, false] [(1 : ℝ)/2, 1/2] =
      [([1, 0], Real.log (999999/1000001)), ([1, 1], 0),
        ([0, 1], Real.log (999999/1000001))] := by
  have h := rows_c5_k10 (999999/4000000) (1000001/4000000) (1000001/4000000)
    (999999/4000000) (by norm_num) (by norm_num) (by norm_num)
  norm_num at h
  exact h

theorem rows_7_c5_k11 :
    rowsOf [(999999 : ℝ)/4000000, 1000001/4000000, 1000001/4000000,
        999999/4000000] [true, true] [(1 : ℝ)/2, 1/2] =
      [([1, 1], 0), ([1, 0], Real.log (1000001/999999)),
        ([0, 1], Real.log (1000001/999999))] := by
  have h := rows_c5_k11 (999999/4000000) (1000001/4000000) (1000001/4000000)
    (999999/4000000) (by norm_num) (by norm_num) (by norm_num)
  norm_num at h
  exact h

theorem vertex_7_k00 :
    vertexOfSubset [([0, 1], Real.log ((1000001 : ℝ)/999999)),
        ([1, 0], Real.log ((1000001 : ℝ)/999999)), ([1, 1], 0)] 2 (1/100000)
      [0, 1] =
      some [Real.log ((1000001 : ℝ)/999999), Real.log ((1000001 : ℝ)/999999)] := by
  unfold vertexOfSubset
  rw [show ([0, 1] : List ℕ).map (fun i =>
        (([([0, 1], Real.log ((1000001 : ℝ)/999999)),
          ([1, 0], Real.log ((1000001 : ℝ)/999999)),
          ([1, 1], 0)] : List (List ℝ × ℝ)).getD i ([], 0)).1) =
      [[0, 1], [1, 0]] from rfl,
    show ([0, 1] : List ℕ).map (fun i =>
        (([([0, 1], Real.log ((1000001 : ℝ)/999999)),
          ([1, 0], Real.log ((1000001 : ℝ)/999999)),
          ([1, 1], 0)] : List (List ℝ × ℝ)).getD i ([], 0)).2) =
      [Real.log ((1000001 : ℝ)/999999), Real.log ((1000001 : ℝ)/999999)] from rfl]
  have hsolve : solveSquare 2 [[(0 : ℝ), 1], [1, 0]]
      [Real.log ((1000001 : ℝ)/999999), Real.log ((1000001 : ℝ)/999999)] =
      some [Real.log ((1000001 : ℝ)/999999), Real.log ((1000001 : ℝ)/999999)] := by
    refine solveSquare_eq_some _ rfl ?_ ?_
    · rw [Matrix.det_fin_two]; show ((0 : ℝ) * 0 - 1 * 1) ≠ 0; norm_num
    · intro i; fin_cases i <;> simp [Fin.sum_univ_two, List.getD]
  rw [hsolve, Option.some_bind, if_pos]
  intro r hr
  simp only [List.mem_cons, List.not_mem_nil, or_false] at hr
  have hk := log_ratio_up_small
  rcases hr with rfl | rfl | rfl <;>
    simp only [dotL, List.zipWith_cons_cons, List.zipWith_nil_right, List.sum_cons,
      List.sum_nil, zero_mul, one_mul, add_zero, zero_add] <;>
    linarith

theorem vertex_7_k01 :
    vertexOfSubset [([0, 1], Real.log ((999999 : ℝ)/1000001)), ([1, 1], 0),
        ([1, 0], Real.log ((999999 : ℝ)/1000001))] 2 (1/100000)
      [0, 2] =
      some [Real.log ((999999 : ℝ)/1000001), Real.log ((999999 : ℝ)/1000001)] := by
  unfold vertexOfSubset
  rw [show ([0, 2] : List ℕ).map (fun i =>
        (([([0, 1], Real.log ((999999 : ℝ)/1000001)), ([1, 1], 0),
          ([1, 0], Real.log ((999999 : ℝ)/1000001))] :
            List (List ℝ × ℝ)).getD i ([], 0)).1) =
      [[0, 1], [1, 0]] from rfl,
    show ([0, 2] : List ℕ).map (fun i =>
        (([([0, 1], Real.log ((999999 : ℝ)/1000001)), ([1, 1], 0),
          ([1, 0], Real.log ((999999 : ℝ)/1000001))] :
            List (List ℝ × ℝ)).getD i ([], 0)).2) =
      [Real.log ((999999 : ℝ)/1000001), Real.log ((999999 : ℝ)/1000001)] from rfl]
  have hsolve : solveSquare 2 [[(0 : ℝ), 1], [1, 0]]
      [Real.log ((999999 : ℝ)/1000001), Real.log ((999999 : ℝ)/1000001)] =
      some [Real.log ((999999 : ℝ)/1000001), Real.log ((999999 : ℝ)/1000001)] := by
    refine solveSquare_eq_some _ rfl ?_ ?_
    · rw [Matrix.det_fin_two]; show ((0 : ℝ) * 0 - 1 * 1) ≠ 0; norm_num
    · intro i; fin_cases i <;> simp [Fin.sum_univ_two, List.getD]
  rw [hsolve, Option.some_bind, if_pos]
  intro r hr
  simp only [List.mem_cons, List.not_mem_nil, or_false] at hr
  have hk := log_ratio_down_nonpos
  rcases hr with rfl | rfl | rfl <;>
    simp only [dotL, List.zipWith_cons_cons, List.zipWith_nil_right, List.sum_cons,
      List.sum_nil, zero_mul, one_mul, add_zero, zero_add] <;>
    linarith

theorem vertex_7_k10 :
    vertexOfSubset [([1, 0], Real.log ((999999 : ℝ)/1000001)), ([1, 1], 0),
        ([0, 1], Real.log ((999999 : ℝ)/1000001))] 2 (1/100000)
      [0, 2] =
      some [Real.log ((999999 : ℝ)/1000001), Real.log ((999999 : ℝ)/1000001)] := by
  unfold vertexOfSubset
  rw [show ([0, 2] : List ℕ).map (fun i =>
        (([([1, 0], Real.log ((999999 : ℝ)/1000001)), ([1, 1], 0),
          ([0, 1], Real.log ((999999 : ℝ)/1000001))] :
            List (List ℝ × ℝ)).getD i ([], 0)).1) =
      [[1, 0], [0, 1]] from rfl,
    show ([0, 2] : List ℕ).map (fun i =>
        (([([1, 0], Real.log ((999999 : ℝ)/1000001)), ([1, 1], 0),
          ([0, 1], Real.log ((999999 : ℝ)/1000001))] :
            List (List ℝ × ℝ)).getD i ([], 0)).2) =
      [Real.log ((999999 : ℝ)/1000001), Real.log ((999999 : ℝ)/1000001)] from rfl]
  have hsolve : solveSquare 2 [[(1 : ℝ), 0], [0, 1]]
      [Real.log ((999999 : ℝ)/1000001), Real.log ((999999 : ℝ)/1000001)] =
      some [Real.log ((999999 : ℝ)/1000001), Real.log ((999999 : ℝ)/1000001)] := by
    refine solveSquare_eq_some _ rfl ?_ ?_
    · rw [Matrix.det_fin_two]; show ((1 : ℝ) * 1 - 0 * 0) ≠ 0; norm_num
    · intro i; fin_cases i <;> simp [Fin.sum_univ_two, List.getD]
  rw [hsolve, Option.some_bind, if_pos]
  intro r hr
  simp only [List.mem_cons, List.not_mem_nil, or_false] at hr
  have hk := log_ratio_down_nonpos
  rcases hr with rfl | rfl | rfl <;>
    simp only [dotL, List.zipWith_cons_cons, List.zipWith_nil_right, List.sum_cons,
      List.sum_nil, zero_mul, one_mul, add_zero, zero_add] <;>
    linarith

theorem vertex_7_k11 :
    vertexOfSubset [([1, 1], 0), ([1, 0], Real.log ((1000001 : ℝ)/999999)),
        ([0, 1], Real.log ((1000001 : ℝ)/999999))] 2 (1/100000)
      [1, 2] =
      some [Real.log ((1000001 : ℝ)/999999), Real.log ((1000001 : ℝ)/999999)] := by
  unfold vertexOfSubset
  rw [show ([1, 2] : List ℕ).map (fun i =>
        (([([1, 1], 0), ([1, 0], Real.log ((1000001 : ℝ)/999999)),
          ([0, 1], Real.log ((1000001 : ℝ)/999999))] :
            List (List ℝ × ℝ)).getD i ([], 0)).1) =
      [[1, 0], [0, 1]] from rfl,
    show ([1, 2] : List ℕ).map (fun i =>
        (([([1, 1], 0), ([1, 0], Real.log ((1000001 : ℝ)/999999)),
          ([0, 1], Real.log ((1000001 : ℝ)/999999))] :
            List (List ℝ × ℝ)).getD i ([], 0)).2) =
      [Real.log ((1000001 : ℝ)/999999), Real.log ((1000001 : ℝ)/999999)] from rfl]
  have hsolve : solveSquare 2 [[(1 : ℝ), 0], [0, 1]]
      [Real.log ((1000001 : ℝ)/999999), Real.log ((1000001 : ℝ)/999999)] =
      some [Real.log ((1000001 : ℝ)/999999), Real.log ((1000001 : ℝ)/999999)] := by
    refine solveSquare_eq_some _ rfl ?_ ?_
    · rw [Matrix.det_fin_two]; show ((1 : ℝ) * 1 - 0 * 0) ≠ 0; norm_num
    · intro i; fin_cases i <;> simp [Fin.sum_univ_two, List.getD]
  rw [hsolve, Option.some_bind, if_pos]
  intro r hr
  simp only [List.mem_cons, List.not_mem_nil, or_false] at hr
  have hk := log_ratio_up_small
  rcases hr with rfl | rfl | rfl <;>
    simp only [dotL, List.zipWith_cons_cons, List.zipWith_nil_right, List.sum_cons,
      List.sum_nil, zero_mul, one_mul, add_zero, zero_add] <;>
    linarith

theorem mem_verts_7_k00 :
    [Real.log ((1000001 : ℝ)/999999), Real.log ((1000001 : ℝ)/999999)] ∈
      verticesOf [(999999 : ℝ)/4000000, 1000001/4000000, 1000001/4000000,
        999999/4000000] [false, false] [(1 : ℝ)/2, 1/2] (1/100000) := by
  refine mem_verticesOf [0, 1] _ ?_ ?_
  · rw [show ([false, false] : List Bool).length = 2 from rfl, freeVars_c5,
      rows_7_c5_k00,
      show ([0, 1] : List ℕ).length = 2 from rfl,
      show ([([0, 1], Real.log ((1000001 : ℝ)/999999)),
        ([1, 0], Real.log ((1000001 : ℝ)/999999)), ([1, 1], 0)] :
          List (List ℝ × ℝ)).length = 3 from rfl,
      show combinations 2 (List.range 3) = [[0, 1], [0, 2], [1, 2]] from rfl]
    exact List.mem_cons_self _ _
  · rw [show ([false, false] : List Bool).length = 2 from rfl, freeVars_c5,
      rows_7_c5_k00, show ([0, 1] : List ℕ).length = 2 from rfl]
    exact vertex_7_k00

theorem mem_verts_7_k01 :
    [Real.log ((999999 : ℝ)/1000001), Real.log ((999999 : ℝ)/1000001)] ∈
      verticesOf [(999999 : ℝ)/4000000, 1000001/4000000, 1000001/4000000,
        999999/4000000] [false, true] [(1 : ℝ)/2, 1/2] (1/100000) := by
  refine mem_verticesOf [0, 2] _ ?_ ?_
  · rw [show ([false, true] : List Bool).length = 2 from rfl, freeVars_c5,
      rows_7_c5_k01,
      show ([0, 1] : List ℕ).length = 2 from rfl,
      show ([([0, 1], Real.log ((999999 : ℝ)/1000001)), ([1, 1], 0),
        ([1, 0], Real.log ((999999 : ℝ)/1000001))] :
          List (List ℝ × ℝ)).length = 3 from rfl,
      show combinations 2 (List.range 3) = [[0, 1], [0, 2], [1, 2]] from rfl]
    exact List.mem_cons_of_mem _ (List.mem_cons_self _ _)
  · rw [show ([false, true] : List Bool).length = 2 from rfl, freeVars_c5,
      rows_7_c5_k01, show ([0, 1] : List ℕ).length = 2 from rfl]
    exact vertex_7_k01

theorem mem_verts_7_k10 :
    [Real.log ((999999 : ℝ)/1000001), Real.log ((999999 : ℝ)/1000001)] ∈
      verticesOf [(999999 : ℝ)/4000000, 1000001/4000000, 1000001/4000000,
        999999/4000000] [true, false] [(1 : ℝ)/2, 1/2] (1/100000) := by
  refine mem_verticesOf [0, 2] _ ?_ ?_
  · rw [show ([true, false] : List Bool).length = 2 from rfl, freeVars_c5,
      rows_7_c5_k10,
      show ([0, 1] : List ℕ).length = 2 from rfl,
      show ([([1, 0], Real.log ((999999 : ℝ)/1000001)), ([1, 1], 0),
        ([0, 1], Real.log ((999999 : ℝ)/1000001))] :
          List (List ℝ × ℝ)).length = 3 from rfl,
      show combinations 2 (List.range 3) = [[0, 1], [0, 2], [1, 2]] from rfl]
    exact List.mem_cons_of_mem _ (List.mem_cons_self _ _)
  · rw [show ([true, false] : List Bool).length = 2 from rfl, freeVars_c5,
      rows_7_c5_k10, show ([0, 1] : List ℕ).length = 2 from rfl]
    exact vertex_7_k10

theorem mem_verts_7_k11 :
    [Real.log ((1000001 : ℝ)/999999), Real.log ((1000001 : ℝ)/999999)] ∈
      verticesOf [(999999 : ℝ)/4000000, 1000001/4000000, 1000001/4000000,
        999999/4000000] [true, true] [(1 : ℝ)/2, 1/2] (1/100000) := by
  refine mem_verticesOf [1, 2] _ ?_ ?_
  · rw [show ([true, true] : List Bool).length = 2 from rfl, freeVars_c5,
      rows_7_c5_k11,
      show ([0, 1] : List ℕ).length = 2 from rfl,
      show ([([1, 1], 0), ([1, 0], Real.log ((1000001 : ℝ)/999999)),
        ([0, 1], Real.log ((1000001 : ℝ)/999999))] :
          List (List ℝ × ℝ)).length = 3 from rfl,
      show combinations 2 (List.range 3) = [[0, 1], [0, 2], [1, 2]] from rfl]
    exact List.mem_cons_of_mem _ (List.mem_cons_of_mem _ (List.mem_cons_self _ _))
  · rw [show ([true, true] : List Bool).length = 2 from rfl, freeVars_c5,
      rows_7_c5_k11, show ([0, 1] : List ℕ).length = 2 from rfl]
    exact vertex_7_k11

theorem cvh_7_c5_k00 :
    ∃ r, computeVerticesHoles [(999999 : ℝ)/4000000, 1000001/4000000,
        1000001/4000000, 999999/4000000] [false, false] [(1 : ℝ)/2, 1/2]
        (1/100000) = some r ∧ (1000000 : ℝ)/999999 ≤ r.1 := by
  obtain ⟨r, hr, hle⟩ := cvh_of_mem_vertex mem_verts_7_k00
  refine ⟨r, hr, le_trans ?_ hle⟩
  rw [show indexB (Range ([false, false] : List Bool).length) [false, false] = 0
      from rfl,
    show ([(999999 : ℝ)/4000000, 1000001/4000000, 1000001/4000000,
      999999/4000000]).getD 0 0 = 999999/4000000 from rfl]
  unfold critVal
  rw [List.map_cons, List.map_cons, List.map_nil,
    Real.exp_log (show (0 : ℝ) < 1000001/999999 by norm_num),
    List.prod_cons, List.prod_cons, List.prod_nil]
  norm_num

theorem cvh_7_c5_k01 :
    ∃ r, computeVerticesHoles [(999999 : ℝ)/4000000, 1000001/4000000,
        1000001/4000000, 999999/4000000] [false, true] [(1 : ℝ)/2, 1/2]
        (1/100000) = some r := by
  obtain ⟨r, hr, _⟩ := cvh_of_mem_vertex mem_verts_7_k01
  exact ⟨r, hr⟩

theorem cvh_7_c5_k10 :
    ∃ r, computeVerticesHoles [(999999 : ℝ)/4000000, 1000001/4000000,
        1000001/4000000, 999999/4000000] [true, false] [(1 : ℝ)/2, 1/2]
        (1/100000) = some r := by
  obtain ⟨r, hr, _⟩ := cvh_of_mem_vertex mem_verts_7_k10
  exact ⟨r, hr⟩

theorem cvh_7_c5_k11 :
    ∃ r, computeVerticesHoles [(999999 : ℝ)/4000000, 1000001/4000000,
        1000001/4000000, 999999/4000000] [true, true] [(1 : ℝ)/2, 1/2]
        (1/100000) = some r := by
  obtain ⟨r, hr, _⟩ := cvh_of_mem_vertex mem_verts_7_k11
  exact ⟨r, hr⟩

theorem cvh_7_singles :
    (∃ r, computeVerticesHoles [(999999 : ℝ)/4000000, 1000001/4000000,
      1000001/4000000, 999999/4000000] [false, false] [(0 : ℝ), 1/2]
      (1/100000) = some r) ∧
    (∃ r, computeVerticesHoles [(999999 : ℝ)/4000000, 1000001/4000000,
      1000001/4000000, 999999/4000000] [false, true] [(0 : ℝ), 1/2]
      (1/100000) = some r) ∧
    (∃ r, computeVerticesHoles [(999999 : ℝ)/4000000, 1000001/4000000,
      1000001/4000000, 999999/4000000] [true, false] [(1 : ℝ), 1/2]
      (1/100000) = some r) ∧
    (∃ r, computeVerticesHoles [(999999 : ℝ)/4000000, 1000001/4000000,
      1000001/4000000, 999999/4000000] [true, true] [(1 : ℝ), 1/2]
      (1/100000) = some r) ∧
    (∃ r, computeVerticesHoles [(999999 : ℝ)/4000000, 1000001/4000000,
      1000001/4000000, 999999/4000000] [false, false] [(1 : ℝ)/2, 0]
      (1/100000) = some r) ∧
    (∃ r, computeVerticesHoles [(999999 : ℝ)/4000000, 1000001/4000000,
      1000001/4000000, 999999/4000000] [true, false] [(1 : ℝ)/2, 0]
      (1/100000) = some r) ∧
    (∃ r, computeVerticesHoles [(999999 : ℝ)/4000000, 1000001/4000000,
      1000001/4000000, 999999/4000000] [false, true] [(1 : ℝ)/2, 1]
      (1/100000) = some r) ∧
    (∃ r, computeVerticesHoles [(999999 : ℝ)/4000000, 1000001/4000000,
      1000001/4000000, 999999/4000000] [true, true] [(1 : ℝ)/2, 1]
      (1/100000) = some r) := by
  refine ⟨⟨_, cvh_single _ _ _ (by norm_num) _
      (rows_c1_k00 (999999/4000000) (1000001/4000000) (1000001/4000000)
        (999999/4000000) (by norm_num))
      (by rw [show ([false, false] : List Bool).length = 2 from rfl, freeVars_c1]; rfl)⟩,
    ⟨_, cvh_single _ _ _ (by norm_num) _
      (rows_c1_k01 (999999/4000000) (1000001/4000000) (1000001/4000000)
        (999999/4000000) (by norm_num))
      (by rw [show ([false, true] : List Bool).length = 2 from rfl, freeVars_c1]; rfl)⟩,
    ⟨_, cvh_single _ _ _ (by norm_num) _
      (rows_c2_k10 (999999/4000000) (1000001/4000000) (1000001/4000000)
        (999999/4000000) (by norm_num))
      (by rw [show ([true, false] : List Bool).length = 2 from rfl, freeVars_c2]; rfl)⟩,
    ⟨_, cvh_single _ _ _ (by norm_num) _
      (rows_c2_k11 (999999/4000000) (1000001/4000000) (1000001/4000000)
        (999999/4000000) (by norm_num))
      (by rw [show ([true, true] : List Bool).length = 2 from rfl, freeVars_c2]; rfl)⟩,
    ⟨_, cvh_single _ _ _ (by norm_num) _
      (rows_c3_k00 (999999/4000000) (1000001/4000000) (1000001/4000000)
        (999999/4000000) (by norm_num))
      (by rw [show ([false, false] : List Bool).length = 2 from rfl, freeVars_c3]; rfl)⟩,
    ⟨_, cvh_single _ _ _ (by norm_num) _
      (rows_c3_k10 (999999/4000000) (1000001/4000000) (1000001/4000000)
        (999999/4000000) (by norm_num))
      (by rw [show ([true, false] : List Bool).length = 2 from rfl, freeVars_c3]; rfl)⟩,
    ⟨_, cvh_single _ _ _ (by norm_num) _
      (rows_c4_k01 (999999/4000000) (1000001/4000000) (1000001/4000000)
        (999999/4000000) (by norm_num))
      (by rw [show ([false, true] : List Bool).length = 2 from rfl, freeVars_c4]; rfl)⟩,
    ⟨_, cvh_single _ _ _ (by norm_num) _
      (rows_c4_k11 (999999/4000000) (1000001/4000000) (1000001/4000000)
        (999999/4000000) (by norm_num))
      (by rw [show ([true, true] : List Bool).length = 2 from rfl, freeVars_c4]; rfl)⟩⟩

theorem indWeight_7_above_one :
    (indWeightHoles [(999999 : ℝ)/4000000, 1000001/4000000, 1000001/4000000,
      999999/4000000]).isSome = true ∧
    1 < resultObj (indWeightHoles [(999999 : ℝ)/4000000, 1000001/4000000,
      1000001/4000000, 999999/4000000]) := by
  have hpos : ∀ j < ([(999999 : ℝ)/4000000, 1000001/4000000, 1000001/4000000,
      999999/4000000]).length,
      ([(999999 : ℝ)/4000000, 1000001/4000000, 1000001/4000000,
        999999/4000000]).getD j 0 ≠ 0 := by
    intro j hj
    simp only [List.length_cons, List.length_nil] at hj
    interval_cases j
    · show (999999 : ℝ)/4000000 ≠ 0; norm_num
    · show (1000001 : ℝ)/4000000 ≠ 0; norm_num
    · show (1000001 : ℝ)/4000000 ≠ 0; norm_num
    · show (999999 : ℝ)/4000000 ≠ 0; norm_num
  have hcalls := callsOf_pos [(999999 : ℝ)/4000000, 1000001/4000000,
    1000001/4000000, 999999/4000000] rfl hpos
  obtain ⟨hs1, hs2, hs3, hs4, hs5, hs6, hs7, hs8⟩ := cvh_7_singles
  have hall : ∀ ci ∈ callsOf [(999999 : ℝ)/4000000, 1000001/4000000,
      1000001/4000000, 999999/4000000],
      ∃ r, computeVerticesHoles [(999999 : ℝ)/4000000, 1000001/4000000,
        1000001/4000000, 999999/4000000] ci.2 ci.1 (1/100000) = some r := by
    rw [hcalls]
    intro ci hci
    simp only [List.mem_cons, List.not_mem_nil, or_false] at hci
    rcases hci with rfl | rfl | rfl | rfl | rfl | rfl | rfl | rfl | rfl | rfl | rfl | rfl
    · exact hs1
    · exact hs2
    · exact hs3
    · exact hs4
    · exact hs5
    · exact hs6
    · exact hs7
    · exact hs8
    · obtain ⟨r, hr, _⟩ := cvh_7_c5_k00; exact ⟨r, hr⟩
    · exact cvh_7_c5_k01
    · exact cvh_7_c5_k10
    · exact cvh_7_c5_k11
  obtain ⟨rs, hrs, hfa⟩ := runCalls_forall hall
  have hmem : (([(1 : ℝ)/2, 1/2], [false, false]) :
      List ℝ × List Bool) ∈ callsOf [(999999 : ℝ)/4000000, 1000001/4000000,
        1000001/4000000, 999999/4000000] := by
    rw [hcalls]
    exact List.mem_cons_of_mem _ (List.mem_cons_of_mem _ (List.mem_cons_of_mem _
      (List.mem_cons_of_mem _ (List.mem_cons_of_mem _ (List.mem_cons_of_mem _
        (List.mem_cons_of_mem _ (List.mem_cons_of_mem _
          (List.mem_cons_self _ _))))))))
  obtain ⟨rstar, hrstarmem, hrstar⟩ := forall₂_mem hfa hmem
  obtain ⟨r0, hr0, hbound⟩ := cvh_7_c5_k00
  have hEq : rstar = r0 := Option.some.inj (hrstar.symm.trans hr0)
  subst hEq
  have hobj : rstar.1 ∈ rs.map Prod.fst := List.mem_map_of_mem _ hrstarmem
  obtain ⟨lam, hlam⟩ := listMax_ne_nil (List.ne_nil_of_mem hobj)
  have hge : rstar.1 ≤ lam := le_listMax hlam hobj
  have hone : (1 : ℝ) < 1000000/999999 := by norm_num
  have hresult : indWeightHoles [(999999 : ℝ)/4000000, 1000001/4000000,
      1000001/4000000, 999999/4000000] =
      some (lam, (rs.getD (indexOfR (rs.map Prod.fst) lam) (0, [])).2) := by
    unfold indWeightHoles
    rw [hrs, Option.some_bind, hlam, Option.map_some']
  constructor
  · rw [hresult]; rfl
  · rw [hresult]
    unfold resultObj
    rw [Option.getD_some]
    show 1 < lam
    linarith

/-- C7 counterexample: `P = [999999, 1000001, 1000001, 999999]/4000000` is a
valid distribution (non-negative, sums to 1), yet the λ returned by
`indWeightHoles(P)` is strictly greater than 1: the default tolerance
`ε = 1e-5` accepts a vertex whose objective is `1000000/999999`. -/
theorem claim7_counterexample :
    ([(999999 : ℝ)/4000000, 1000001/4000000, 1000001/4000000,
      999999/4000000]).sum = 1 ∧
    (∀ x ∈ [(999999 : ℝ)/4000000, 1000001/4000000, 1000001/4000000,
      999999/4000000], 0 ≤ x) ∧
    (indWeightHoles [(999999 : ℝ)/4000000, 1000001/4000000, 1000001/4000000,
      999999/4000000]).isSome = true ∧
    1 < resultObj (indWeightHoles [(999999 : ℝ)/4000000, 1000001/4000000,
      1000001/4000000, 999999/4000000]) := by
  refine ⟨by norm_num [List.sum_cons, List.sum_nil], ?_,
    indWeight_7_above_one.1, indWeight_7_above_one.2⟩
  intro x hx
  simp only [List.mem_cons, List.not_mem_nil, or_false] at hx
  rcases hx with rfl | rfl | rfl | rfl <;> norm_num

end IndependentWeight
